import Mathlib

/-!
# Apple Music API simulator: search aggregation and result shaping

A shallow embedding of the Go sources

* `internal/core/domain/entities.go`
* `internal/core/ports/driven/music_provider.go`
* `internal/core/ports/driving/music_service.go`
* `internal/core/services/music_service.go`
* `internal/adapters/driver/http/search_handler.go`
* `internal/adapters/driven/lastfm/lastfm.go`

Conventions of the embedding.

* A Go `string` is the list of its code points (`GoString`); the strings are
  taken to be valid UTF-8, so that the ASCII bytes the code looks for
  (space, comma, slash, backslash, hyphen) are exactly the code points of
  the same value.
* A Go `int` is an `Int`; where the source does arithmetic that can leave
  the 64-bit range the result is wrapped explicitly.
* A Go slice is a `List`; a `nil` slice and an empty slice are both `[]`.
* A Go `(T, error)` result of a collaborator is an `Except GoError T`.
  `MusicService.Search` returns the Go pair itself (`SearchReturn`), since the
  properties of interest speak about `nil` results next to a non-`nil` error.
* A run-time panic (slice bounds out of range, nil dereference) is `none` of
  an outer `Option`.
* Calls to the outside world are explicit: a provider is a triple of
  state-passing functions over an arbitrary world state `σ`.
-/

set_option autoImplicit false

namespace AppleMusic

/-! ## Go values -/

/-- A Go string as the list of its code points. -/
abbrev GoString := List Char

/-- A Go `error` value: either a plain message (`errors.New`, `fmt.Errorf` with
`%v`) or a message wrapping another error (`fmt.Errorf` with `%w`). -/
inductive GoError where
  | errorString (msg : GoString)
  | wrapError (msg : GoString) (err : GoError)
deriving DecidableEq, Repr

/-- The method `Error()` of an error value. -/
def GoError.Error : GoError → GoString
  | .errorString msg => msg
  | .wrapError msg _ => msg

/-- The method `Unwrap()` as seen through `errors.Unwrap`. -/
def GoError.Unwrap : GoError → Option GoError
  | .errorString _ => none
  | .wrapError _ err => some err

/-- The call `fmt.Errorf(pfx + "%w", err)`: the message is the formatted
text and the result unwraps to `err`. -/
def Errorf_w (pfx : GoString) (err : GoError) : GoError :=
  .wrapError (pfx ++ err.Error) err

/-- The slice expression `xs[:hi]` for `hi` not above the length: it panics
(`none`) when `hi` is negative or exceeds the length. -/
def sliceTo {α : Type} (xs : List α) (hi : Int) : Option (List α) :=
  if 0 ≤ hi ∧ hi ≤ (xs.length : Int) then some (xs.take hi.toNat) else none

/-- A Go `int` after an arithmetic operation: the mathematical result wrapped
into the signed 64-bit range. -/
def wrapInt64 (x : Int) : Int :=
  (x + 2 ^ 63) % 2 ^ 64 - 2 ^ 63

/-! ## The Go standard library functions the sources call

These are modelled from the documentation of the Go standard library. -/

/-- The predicate `unicode.IsSpace`: the code points with the Unicode property
White_Space. -/
def IsSpace (c : Char) : Bool :=
  let n := c.toNat
  (9 ≤ n && n ≤ 13) || n == 32 || n == 133 || n == 160 || n == 5760 ||
    (8192 ≤ n && n ≤ 8202) || n == 8232 || n == 8233 || n == 8239 || n == 8287 ||
    n == 12288

/-- The function `strings.TrimSpace`: the string without its leading and
trailing white space. -/
def TrimSpace (s : GoString) : GoString :=
  ((s.dropWhile IsSpace).reverse.dropWhile IsSpace).reverse

/-- The call `strings.Split(s, sep)` for a separator of one character: the
substrings between the separators, in order; the empty string gives one empty
substring. -/
def Split (s : GoString) (sep : Char) : List GoString :=
  match s with
  | [] => [[]]
  | c :: cs =>
    if c = sep then [] :: Split cs sep
    else
      match Split cs sep with
      | [] => [[c]]
      | tok :: toks => (c :: tok) :: toks

/-- The value of a string of decimal digits. -/
def digitsValue (ds : List Char) : Nat :=
  ds.foldl (fun acc c => acc * 10 + (c.toNat - 48)) 0

/-- The function `strconv.Atoi`: an optional sign followed by one or more
decimal digits, whose value fits a signed 64-bit integer; anything else is an
error (`none`). -/
def Atoi (s : GoString) : Option Int :=
  let neg := s.head? = some '-'
  let ds := if s.head? = some '-' ∨ s.head? = some '+' then s.tail else s
  if ds = [] ∨ !ds.all Char.isDigit then none
  else
    let v : Int := if neg then -(digitsValue ds : Int) else (digitsValue ds : Int)
    if v < -(2 ^ 63) ∨ 2 ^ 63 - 1 < v then none else some v

/-- The verb `%d` of `fmt.Sprintf` (and `strconv.Itoa`): the decimal text of an
integer. -/
def formatInt (x : Int) : GoString :=
  if x < 0 then '-' :: Nat.toDigits 10 x.natAbs else Nat.toDigits 10 x.natAbs

/-- The function `strings.ToLower`: every code point mapped by
`unicode.ToLower`, whose case table is the parameter `lower`. -/
def ToLower (lower : Char → Char) (s : GoString) : GoString :=
  s.map lower

/-- The scan of `strings.ReplaceAll`: `skip` counts the characters still
belonging to the occurrence of `old` that was just replaced. -/
def ReplaceAll.scan (old new : GoString) : Nat → GoString → GoString
  | _, [] => []
  | skip + 1, _ :: cs => ReplaceAll.scan old new skip cs
  | 0, c :: cs =>
    if old.isPrefixOf (c :: cs) then new ++ ReplaceAll.scan old new (old.length - 1) cs
    else c :: ReplaceAll.scan old new 0 cs

/-- The call `strings.ReplaceAll(s, old, new)` for a non-empty `old`: the
non-overlapping occurrences of `old`, found from the left, replaced by `new`. -/
def ReplaceAll (s old new : GoString) : GoString :=
  if old = new then s else ReplaceAll.scan old new 0 s

/-- The function `strings.Contains`: `substr` occurs in `s`. -/
def Contains (s substr : GoString) : Bool :=
  s.tails.any (fun t => substr.isPrefixOf t)

/-- The scan of `strings.Fields`: `cur` is the field read so far. -/
def Fields.scan : GoString → GoString → List GoString
  | cur, [] => if cur = [] then [] else [cur]
  | cur, c :: cs =>
    if IsSpace c then (if cur = [] then Fields.scan [] cs else cur :: Fields.scan [] cs)
    else Fields.scan (cur ++ [c]) cs

/-- The function `strings.Fields`: the maximal runs of characters that are not
white space, in order. -/
def Fields (s : GoString) : List GoString :=
  Fields.scan [] s

/-- The call `strings.Cut(s, sep)` for a separator of one character: the text
before the first separator, the text after it, and whether there is one. -/
def Cut (s : GoString) (sep : Char) : GoString × GoString × Bool :=
  match s with
  | [] => ([], [], false)
  | c :: cs =>
    if c = sep then ([], cs, true)
    else
      match Cut cs sep with
      | (before, after, found) => (c :: before, after, found)

/-- The value of a hexadecimal digit. -/
def hexValue (c : Char) : Option Nat :=
  if '0' ≤ c ∧ c ≤ '9' then some (c.toNat - 48)
  else if 'a' ≤ c ∧ c ≤ 'f' then some (c.toNat - 87)
  else if 'A' ≤ c ∧ c ≤ 'F' then some (c.toNat - 55)
  else none

/-- The UTF-8 encoding of a code point, byte by byte. -/
def encodeRune (c : Char) : List Nat :=
  let n := c.toNat
  if n < 128 then [n]
  else if n < 2048 then [192 + n / 64, 128 + n % 64]
  else if n < 65536 then [224 + n / 4096, 128 + n / 64 % 64, 128 + n % 64]
  else [240 + n / 262144, 128 + n / 4096 % 64, 128 + n / 64 % 64, 128 + n % 64]

/-- The bytes `url.QueryUnescape` yields: `+` is a space, `%XY` is the byte with
the hexadecimal value `XY`, any other character stands for the bytes of its
UTF-8 encoding; a `%` without two hexadecimal digits is an error (`none`). -/
def unescapeBytes : GoString → Option (List Nat)
  | [] => some []
  | c :: rest =>
    if c = '+' then (unescapeBytes rest).map (fun t => 32 :: t)
    else if c = '%' then
      match rest with
      | a :: b :: rest2 =>
        match hexValue a, hexValue b with
        | some x, some y => (unescapeBytes rest2).map (fun t => (16 * x + y) :: t)
        | _, _ => none
      | _ => none
    else (unescapeBytes rest).map (fun t => encodeRune c ++ t)

/-- A byte is a continuation byte of UTF-8. -/
def isContinuation (b : Nat) : Bool :=
  128 ≤ b && b ≤ 191

/-- The second byte `b1` is accepted after the leading byte `b0` of a sequence
of three or four bytes (the table `acceptRanges` of `unicode/utf8`). -/
def secondAccepted (b0 b1 : Nat) : Bool :=
  (if b0 = 224 then 160 else if b0 = 240 then 144 else 128) ≤ b1 &&
    b1 ≤ (if b0 = 237 then 159 else if b0 = 244 then 143 else 191)

/-- What the byte `b` starts when no sequence is open: the code points to
give out at once and the bytes of the sequence it opens. An ASCII byte is its
own code point, a leading byte (`0xC2` to `0xF4`) opens a sequence, any other
byte is read as `U+FFFD`. -/
def decodeRunes.start (b : Nat) : GoString × List Nat :=
  if b < 128 then ([Char.ofNat b], [])
  else if 194 ≤ b ∧ b ≤ 244 then ([], [b])
  else ([Char.ofNat 65533], [])

/-- The byte `b` continues the open sequence `pending`. -/
def decodeRunes.accepts (pending : List Nat) (b : Nat) : Bool :=
  match pending with
  | [] => false
  | [b0] => if b0 ≤ 223 then isContinuation b else secondAccepted b0 b
  | _ :: _ :: _ => isContinuation b

/-- The code point of a complete sequence, `none` while bytes are missing. -/
def decodeRunes.rune : List Nat → Option Char
  | [b0, b1] => if b0 ≤ 223 then some (Char.ofNat ((b0 - 192) * 64 + (b1 - 128))) else none
  | [b0, b1, b2] =>
    if b0 ≤ 239 then some (Char.ofNat ((b0 - 224) * 4096 + (b1 - 128) * 64 + (b2 - 128)))
    else none
  | [b0, b1, b2, b3] =>
    some (Char.ofNat ((b0 - 240) * 262144 + (b1 - 128) * 4096 + (b2 - 128) * 64 + (b3 - 128)))
  | _ => none

/-- The scan of `decodeRunes`: `pending` holds the bytes of the sequence that
is open. When a byte does not continue it, or the bytes end, every byte of
`pending` is read as `U+FFFD`: the leading byte has no valid sequence, and the
continuation bytes after it start none. -/
def decodeRunes.scan : List Nat → List Nat → GoString
  | pending, [] => pending.map (fun _ => Char.ofNat 65533)
  | pending, b :: rest =>
    if decodeRunes.accepts pending b then
      match decodeRunes.rune (pending ++ [b]) with
      | some c => c :: decodeRunes.scan [] rest
      | none => decodeRunes.scan (pending ++ [b]) rest
    else
      pending.map (fun _ => Char.ofNat 65533) ++ (decodeRunes.start b).1 ++
        decodeRunes.scan (decodeRunes.start b).2 rest

/-- The code points of a Go string given by its bytes, as `utf8.DecodeRune`
reads them one after the other: a byte that does not start a valid sequence
is read as `U+FFFD` and the reading goes on with the next byte. -/
def decodeRunes (bytes : List Nat) : GoString :=
  decodeRunes.scan [] bytes

/-- The function `url.QueryUnescape`: `+` is a space and `%XY` is the byte with
the hexadecimal value `XY`; a `%` without two hexadecimal digits is an error
(`none`). The bytes of the result are given as code points; where they are not
UTF-8, which is outside the convention of this embedding, they are given the
way Go reads them rune by rune. -/
def QueryUnescape (s : GoString) : Option GoString :=
  (unescapeBytes s).map decodeRunes

/-- One step of `url.ParseQuery` as `URL.Query()` uses it: the key and value of
one piece between `&` separators, `none` for a piece that is skipped (empty,
holding a semicolon, or malformed). -/
def parseQueryPiece (piece : GoString) : Option (GoString × GoString) :=
  if piece = [] ∨ ';' ∈ piece then none
  else
    match Cut piece '=' with
    | (key, value, _) =>
      match QueryUnescape key, QueryUnescape value with
      | some k, some v => some (k, v)
      | _, _ => none

/-- The method `URL.Query()` on a raw query string: the key/value pairs in
order of appearance; malformed pairs are silently discarded. -/
def ParseQuery (query : GoString) : List (GoString × GoString) :=
  (Split query '&').filterMap parseQueryPiece

/-- The method `Values.Get`: the first value of the key, or the empty string. -/
def Values.Get (values : List (GoString × GoString)) (key : GoString) : GoString :=
  match values.find? (fun kv => kv.1 = key) with
  | some kv => kv.2
  | none => []

/-- The raw query of a link as `url.Parse` finds it: the text after the first
`?` of what stands before the first `#`. -/
def rawQueryOf (link : GoString) : GoString :=
  (Cut (Cut link '#').1 '?').2.1

/-! ## Domain entities (`internal/core/domain/entities.go`) -/

structure Artwork where
  Width : Int := 0
  Height : Int := 0
  URL : GoString := []
  BgColor : GoString := []
  TextColor1 : GoString := []
  TextColor2 : GoString := []
  TextColor3 : GoString := []
  TextColor4 : GoString := []
deriving DecidableEq, Repr

structure PlayParams where
  ID : GoString := []
  Kind : GoString := []
deriving DecidableEq, Repr

structure Preview where
  URL : GoString := []
deriving DecidableEq, Repr

structure EditorialNotes where
  Standard : GoString := []
  Short : GoString := []
deriving DecidableEq, Repr

structure SongAttributes where
  AlbumName : GoString := []
  GenreNames : List GoString := []
  TrackNumber : Int := 0
  ReleaseDate : GoString := []
  DurationInMillis : Int := 0
  ISRC : GoString := []
  Artwork : Artwork := {}
  URL : GoString := []
  PlayParams : PlayParams := {}
  DiscNumber : Int := 0
  IsAppleDigitalMaster : Bool := false
  HasLyrics : Bool := false
  Name : GoString := []
  Previews : List Preview := []
  ArtistName : GoString := []
  ComposerName : GoString := []
deriving DecidableEq, Repr

/-- The struct `Song`; the Go field `Type` is spelt `Type_`. -/
structure Song where
  ID : GoString := []
  Type_ : GoString := []
  Href : GoString := []
  Attributes : SongAttributes := {}
deriving DecidableEq, Repr

structure AlbumAttributes where
  Copyright : GoString := []
  GenreNames : List GoString := []
  ReleaseDate : GoString := []
  IsMasteredForItunes : Bool := false
  UPC : GoString := []
  Artwork : Artwork := {}
  URL : GoString := []
  PlayParams : PlayParams := {}
  RecordLabel : GoString := []
  TrackCount : Int := 0
  IsCompilation : Bool := false
  IsSingle : Bool := false
  Name : GoString := []
  ArtistName : GoString := []
  EditorialNotes : EditorialNotes := {}
  IsComplete : Bool := false
  ContentRating : GoString := []
deriving DecidableEq, Repr

/-- The struct `Album`; the Go field `Type` is spelt `Type_`. -/
structure Album where
  ID : GoString := []
  Type_ : GoString := []
  Href : GoString := []
  Attributes : AlbumAttributes := {}
deriving DecidableEq, Repr

structure ArtistAttributes where
  Name : GoString := []
  GenreNames : List GoString := []
  Artwork : Artwork := {}
  URL : GoString := []
deriving DecidableEq, Repr

/-- One entry of `ArtistRelationships.Albums.Data`. -/
structure ArtistAlbumRef where
  ID : GoString := []
  Type_ : GoString := []
  Href : GoString := []
deriving DecidableEq, Repr

/-- The field `Albums` of `ArtistRelationships`. -/
structure ArtistAlbums where
  Href : GoString := []
  Data : List ArtistAlbumRef := []
deriving DecidableEq, Repr

structure ArtistRelationships where
  Albums : ArtistAlbums := {}
deriving DecidableEq, Repr

/-- The struct `Artist`; the Go field `Type` is spelt `Type_`. -/
structure Artist where
  ID : GoString := []
  Type_ : GoString := []
  Href : GoString := []
  Attributes : ArtistAttributes := {}
  Relationships : ArtistRelationships := {}
deriving DecidableEq, Repr

/-! ## Ports (`internal/core/ports`) -/

/-- The Go type `SearchResultType`, a string type. -/
abbrev SearchResultType := GoString

def ArtistsType : SearchResultType := "artists".toList
def SongsType : SearchResultType := "songs".toList
def AlbumsType : SearchResultType := "albums".toList

structure SearchParameters where
  Term : GoString
  Limit : Int
  Offset : Int
  Types : List SearchResultType
deriving DecidableEq, Repr

/-- The struct `driving.SearchResults`. -/
structure SearchResults where
  Artists : List Artist := []
  Songs : List Song := []
  Albums : List Album := []
deriving DecidableEq, Repr

/-- The interface `driven.MusicProvider`. Every method call reads and updates
the state `σ` of the world behind the provider, so that two calls with the same
arguments may answer differently. -/
structure MusicProvider (σ : Type) where
  SearchSongs : GoString → Int → Int → σ → Except GoError (List Song) × σ
  SearchAlbums : GoString → Int → Int → σ → Except GoError (List Album) × σ
  SearchArtists : GoString → Int → Int → σ → Except GoError (List Artist) × σ

/-- What `MusicService.Search` hands back: the pointer `*SearchResults`
(`none` is `nil`) and the error (`none` is `nil`). -/
structure SearchReturn where
  results : Option SearchResults
  err : Option GoError
deriving DecidableEq, Repr

/-! ## The search aggregator (`internal/core/services/music_service.go`) -/

/-- The statement `if len(xs) > limit { xs = xs[:limit] }`. -/
def clampTo {α : Type} (xs : List α) (limit : Int) : Option (List α) :=
  if (xs.length : Int) > limit then sliceTo xs limit else some xs

/-- The loop `for _, searchType := range params.Types` of
`MusicService.Search`, started with the results collected so far; what it
yields is what `Search` returns (`none`: the truncation panicked), next to the
state the provider calls left behind. -/
def MusicService.searchLoop {σ : Type} (p : MusicProvider σ) (params : SearchParameters) :
    List SearchResultType → SearchResults → σ → Option SearchReturn × σ
  | [], results, s => (some ⟨some results, none⟩, s)
  | searchType :: rest, results, s =>
    if searchType = SongsType then
      match p.SearchSongs params.Term params.Limit params.Offset s with
      | (.error err, s1) =>
        (some ⟨none, some (Errorf_w "error searching songs: ".toList err)⟩, s1)
      | (.ok songs, s1) =>
        match clampTo songs params.Limit with
        | none => (none, s1)
        | some songs1 => searchLoop p params rest { results with Songs := songs1 } s1
    else if searchType = AlbumsType then
      match p.SearchAlbums params.Term params.Limit params.Offset s with
      | (.error err, s1) =>
        (some ⟨none, some (Errorf_w "error searching albums: ".toList err)⟩, s1)
      | (.ok albums, s1) =>
        match clampTo albums params.Limit with
        | none => (none, s1)
        | some albums1 => searchLoop p params rest { results with Albums := albums1 } s1
    else if searchType = ArtistsType then
      match p.SearchArtists params.Term params.Limit params.Offset s with
      | (.error err, s1) =>
        (some ⟨none, some (Errorf_w "error searching artists: ".toList err)⟩, s1)
      | (.ok artists, s1) =>
        match clampTo artists params.Limit with
        | none => (none, s1)
        | some artists1 => searchLoop p params rest { results with Artists := artists1 } s1
    else searchLoop p params rest results s

/-- The method `MusicService.Search`. -/
def MusicService.Search {σ : Type} (p : MusicProvider σ) (params : SearchParameters) (s : σ) :
    Option SearchReturn × σ :=
  MusicService.searchLoop p params params.Types {} s

/-! ### Observing the provider calls -/

/-- What a provider call answered: the list of its category, or an error. -/
inductive ProviderAnswer where
  | songs (list : List Song)
  | albums (list : List Album)
  | artists (list : List Artist)
  | failed (err : GoError)
deriving DecidableEq, Repr

/-- One provider call as an observer sees it: the method called (by the name
of its category), the arguments, and the answer. -/
structure ProviderCall where
  category : SearchResultType
  term : GoString
  limit : Int
  offset : Int
  answer : ProviderAnswer
deriving DecidableEq, Repr

/-- The error a provider call answered with (`none` when it answered with a
list). -/
def ProviderCall.err (c : ProviderCall) : Option GoError :=
  match c.answer with
  | .failed err => some err
  | _ => none

/-- An answer of a provider method as a journal entry. -/
def toAnswer {α : Type} (ok : List α → ProviderAnswer) : Except GoError (List α) → ProviderAnswer
  | .error err => .failed err
  | .ok list => ok list

/-- The provider `p` with a journal next to its state: every call is answered
as `p` answers it and appended to the journal. -/
def MusicProvider.logged {σ : Type} (p : MusicProvider σ) :
    MusicProvider (σ × List ProviderCall) where
  SearchSongs := fun term limit offset st =>
    match p.SearchSongs term limit offset st.1 with
    | (reply, s1) =>
      (reply, (s1, st.2 ++ [⟨SongsType, term, limit, offset, toAnswer .songs reply⟩]))
  SearchAlbums := fun term limit offset st =>
    match p.SearchAlbums term limit offset st.1 with
    | (reply, s1) =>
      (reply, (s1, st.2 ++ [⟨AlbumsType, term, limit, offset, toAnswer .albums reply⟩]))
  SearchArtists := fun term limit offset st =>
    match p.SearchArtists term limit offset st.1 with
    | (reply, s1) =>
      (reply, (s1, st.2 ++ [⟨ArtistsType, term, limit, offset, toAnswer .artists reply⟩]))

/-- The journal of the provider calls `Search` makes for `params` from the
state `s`, in the order of the calls. -/
def MusicService.journal {σ : Type} (p : MusicProvider σ) (params : SearchParameters) (s : σ) :
    List ProviderCall :=
  (MusicService.Search p.logged params (s, [])).2.2

/-- The list of songs of the last song answer in a journal, `init` if it has
none. -/
def lastSongs (init : Option (List Song)) (journal : List ProviderCall) : Option (List Song) :=
  journal.foldl (fun acc c => match c.answer with | .songs list => some list | _ => acc) init

/-- The list of albums of the last album answer in a journal, `init` if it has
none. -/
def lastAlbums (init : Option (List Album)) (journal : List ProviderCall) :
    Option (List Album) :=
  journal.foldl (fun acc c => match c.answer with | .albums list => some list | _ => acc) init

/-- The list of artists of the last artist answer in a journal, `init` if it
has none. -/
def lastArtists (init : Option (List Artist)) (journal : List ProviderCall) :
    Option (List Artist) :=
  journal.foldl (fun acc c => match c.answer with | .artists list => some list | _ => acc) init

/-! ## The HTTP handler (`internal/adapters/driver/http/search_handler.go`) -/

/-- The interface `driving.MusicService` as the handler sees it: one method
`Search`, which may panic (`none`) and acts on the state `σ` of whatever stands
behind the service. -/
abbrev MusicServicePort (σ : Type) := SearchParameters → σ → Option SearchReturn × σ

/-- The service `svc` with a journal next to its state: every invocation is
answered as `svc` answers it and its argument is appended to the journal. -/
def loggedService {σ : Type} (svc : MusicServicePort σ) :
    MusicServicePort (σ × List SearchParameters) :=
  fun params st =>
    match svc params st.1 with
    | (ret, s1) => (ret, (s1, st.2 ++ [params]))

/-- What the handler reads of a request: the values `r.URL.Query().Get` gives
for the keys `term`, `limit`, `offset` and `types`. `Get` gives the empty string
for a key that is absent, so an absent parameter is the empty string here. -/
structure SearchRequest where
  term : GoString
  limit : GoString
  offset : GoString
  types : GoString
deriving DecidableEq, Repr

/-- One value of the map `response.Results`: the anonymous struct with the
fields `Href`, `Next` and `Data`. -/
structure CategoryResult (α : Type) where
  Href : GoString
  Next : GoString
  Data : List α
deriving DecidableEq, Repr

/-- The anonymous struct `response` of the handler. The map `Results` only ever
gets the keys `artists`, `songs` and `albums`; it is kept as one optional
value per key (`none`: the key is not in the map). `Order` is
`response.Meta.Results.Order`. -/
structure SearchResponse where
  artists : Option (CategoryResult Artist) := none
  songs : Option (CategoryResult Song) := none
  albums : Option (CategoryResult Album) := none
  Order : List GoString := []
deriving DecidableEq, Repr

/-- What the handler writes: either `http.Error(w, msg, code)`, or the JSON
encoding of `response`, which goes out with status 200. -/
inductive HTTPResponse where
  | error (msg : GoString) (code : Nat)
  | json (body : SearchResponse)
deriving DecidableEq, Repr

/-- The status code of a response. -/
def HTTPResponse.status : HTTPResponse → Nat
  | .error _ code => code
  | .json _ => 200

def StatusBadRequest : Nat := 400
def StatusInternalServerError : Nat := 500

/-- The block "Obter e validar limit": `none` stands for the answer
"invalid limit parameter". -/
def SearchHandler.parseLimit (limitStr : GoString) : Option Int :=
  if limitStr ≠ [] then
    match Atoi limitStr with
    | none => none
    | some limit => if limit < 1 then some 5 else if limit > 25 then some 25 else some limit
  else some 5

/-- The block "Obter e validar offset": `none` stands for the answer
"invalid offset parameter". -/
def SearchHandler.parseOffset (offsetStr : GoString) : Option Int :=
  if offsetStr ≠ [] then
    match Atoi offsetStr with
    | none => none
    | some offset => if offset < 0 then some 0 else some offset
  else some 0

/-- The block "Obter e validar types". -/
def SearchHandler.parseTypes (typesStr : GoString) : List SearchResultType :=
  if typesStr ≠ [] then
    (Split typesStr ',').foldl
      (fun types t =>
        let tok := TrimSpace t
        if tok = "artists".toList then types ++ [ArtistsType]
        else if tok = "songs".toList then types ++ [SongsType]
        else if tok = "albums".toList then types ++ [AlbumsType]
        else types)
      []
  else [ArtistsType, SongsType, AlbumsType]

/-- The text `fmt.Sprintf` makes of the link format
`/v1/catalog/us/search?term=%s&types=<category>&limit=%d&offset=%d`. -/
def SearchHandler.link (term category : GoString) (limit offset : Int) : GoString :=
  "/v1/catalog/us/search?term=".toList ++ term ++ "&types=".toList ++ category ++
    "&limit=".toList ++ formatInt limit ++ "&offset=".toList ++ formatInt offset

/-- The loop "Adicionar apenas os tipos solicitados à resposta". Reading a
field of `results` panics (`none`) when the pointer is `nil`. -/
def SearchHandler.assemble (term : GoString) (limit offset : Int)
    (results : Option SearchResults) :
    List SearchResultType → SearchResponse → Option SearchResponse
  | [], response => some response
  | t :: rest, response =>
    if t = ArtistsType then
      match results with
      | none => none
      | some res =>
        SearchHandler.assemble term limit offset results rest
          { response with
            artists := some
              { Href := SearchHandler.link term "artists".toList limit offset
                Next := SearchHandler.link term "artists".toList limit (wrapInt64 (offset + limit))
                Data := res.Artists }
            Order := response.Order ++ ["artists".toList] }
    else if t = SongsType then
      match results with
      | none => none
      | some res =>
        SearchHandler.assemble term limit offset results rest
          { response with
            songs := some
              { Href := SearchHandler.link term "songs".toList limit offset
                Next := SearchHandler.link term "songs".toList limit (wrapInt64 (offset + limit))
                Data := res.Songs }
            Order := response.Order ++ ["songs".toList] }
    else if t = AlbumsType then
      match results with
      | none => none
      | some res =>
        SearchHandler.assemble term limit offset results rest
          { response with
            albums := some
              { Href := SearchHandler.link term "albums".toList limit offset
                Next := SearchHandler.link term "albums".toList limit (wrapInt64 (offset + limit))
                Data := res.Albums }
            Order := response.Order ++ ["albums".toList] }
    else SearchHandler.assemble term limit offset results rest response

/-- The method `SearchHandler.Search`: the response written (`none`: the
handler panicked) and the state the service is left in. The JSON encoding of
`response` is taken to succeed. -/
def SearchHandler.Search {σ : Type} (musicService : MusicServicePort σ) (r : SearchRequest)
    (s : σ) : Option HTTPResponse × σ :=
  if r.term = [] then
    (some (.error "term parameter is required".toList StatusBadRequest), s)
  else
    match SearchHandler.parseLimit r.limit with
    | none => (some (.error "invalid limit parameter".toList StatusBadRequest), s)
    | some limit =>
      match SearchHandler.parseOffset r.offset with
      | none => (some (.error "invalid offset parameter".toList StatusBadRequest), s)
      | some offset =>
        let types := SearchHandler.parseTypes r.types
        let params : SearchParameters :=
          { Term := r.term, Limit := limit, Offset := offset, Types := types }
        match musicService params s with
        | (none, s1) => (none, s1)
        | (some ⟨_, some err⟩, s1) =>
          (some (.error ("error performing search: ".toList ++ err.Error)
            StatusInternalServerError), s1)
        | (some ⟨results, none⟩, s1) =>
          match SearchHandler.assemble r.term limit offset results types {} with
          | none => (none, s1)
          | some response => (some (.json response), s1)

/-! ## The Last.fm adapter (`internal/adapters/driven/lastfm/lastfm.go`) -/

/-- The call `fmt.Errorf(pfx + "%v", err)`: a plain error with the formatted
text. -/
def Errorf_v (pfx : GoString) (err : GoError) : GoError :=
  .errorString (pfx ++ err.Error)

/-- One element of `results.trackmatches.track` in the decoded answer. -/
structure TrackMatch where
  Name : GoString
  Artist : GoString
deriving DecidableEq, Repr

/-- One element of an `image` array in the decoded answer. -/
structure ImageRef where
  Size : GoString
  URL : GoString
deriving DecidableEq, Repr

/-- One element of `results.albummatches.album` in the decoded answer. -/
structure AlbumMatch where
  Name : GoString
  Artist : GoString
  URL : GoString := []
  Listeners : GoString := []
  Image : List ImageRef := []
deriving DecidableEq, Repr

/-- One element of `results.artistmatches.artist` in the decoded answer. -/
structure ArtistMatch where
  Name : GoString
  URL : GoString := []
  Listeners : GoString := []
  Image : List ImageRef := []
deriving DecidableEq, Repr

/-- What the adapter asks of Last.fm: the API method, the search text and the
`limit` and `page` parameters it puts into the URL. -/
structure LastFMRequest where
  method : GoString
  text : GoString
  limit : Int
  page : Int
deriving DecidableEq, Repr

/-- How an exchange with Last.fm ends: the request fails, reading the body
fails, decoding the body fails, or the body decodes to a list of matches. -/
inductive UpstreamReply (α : Type) where
  | getFailed (err : GoError)
  | readFailed (err : GoError)
  | decodeFailed (err : GoError)
  | decoded (found : List α)

/-- The Last.fm web API as the adapter uses it, acting on a world state `σ`. -/
structure LastFM (σ : Type) where
  trackSearch : LastFMRequest → σ → UpstreamReply TrackMatch × σ
  albumSearch : LastFMRequest → σ → UpstreamReply AlbumMatch × σ
  artistSearch : LastFMRequest → σ → UpstreamReply ArtistMatch × σ

/-- The one-character string holding a backslash. -/
def backslash : GoString := [Char.ofNat 92]

/-- The page number `offset/limit+1` for a non-zero `limit`: Go's division
truncates toward zero and the sum wraps. -/
def LastFMAdapter.page (limit offset : Int) : Int :=
  wrapInt64 (wrapInt64 (Int.tdiv offset limit) + 1)

/-- The identifier of a song (`songID`) and of an album (`id`): the same four
statements in `SearchSongs` and in `SearchAlbums`. -/
def LastFMAdapter.songID (lower : Char → Char) (artist name : GoString) : GoString :=
  let songID := ToLower lower artist ++ "-".toList ++ ToLower lower name
  let songID := ReplaceAll songID " ".toList "-".toList
  let songID := ReplaceAll songID "/".toList "-".toList
  ReplaceAll songID backslash "-".toList

/-- The identifier of an artist (`id` in `SearchArtists`). -/
def LastFMAdapter.artistID (lower : Char → Char) (name : GoString) : GoString :=
  let id := ToLower lower name
  let id := ReplaceAll id " ".toList "-".toList
  let id := ReplaceAll id "/".toList "-".toList
  ReplaceAll id backslash "-".toList

/-- The flag `isMainArtist` of `SearchSongs`, for the lower-cased artist. -/
def LastFMAdapter.isMainArtist (queryTerms : List GoString) (artistName : GoString) : Bool :=
  queryTerms.any (fun term =>
    Contains artistName term && !Contains artistName "(".toList &&
      !Contains artistName ")".toList)

/-- The flag `exactTitleMatch` of `SearchSongs`, for the lower-cased title. -/
def LastFMAdapter.exactTitleMatch (queryTerms : List GoString) (trackName : GoString) : Bool :=
  queryTerms.any (fun term => Contains trackName term)

/-- The value `song` built for one track. -/
def LastFMAdapter.toSong (lower : Char → Char) (track : TrackMatch) : Song :=
  { ID := LastFMAdapter.songID lower track.Artist track.Name
    Type_ := "songs".toList
    Attributes :=
      { Name := track.Name
        ArtistName := track.Artist
        GenreNames := ["Pop".toList] } }

/-- The loop over the decoded tracks in `SearchSongs`: the pair
`(exactMatches, otherMatches)` after the given tracks. -/
def LastFMAdapter.classify (lower : Char → Char) (queryTerms : List GoString) :
    List TrackMatch → List Song × List Song → List Song × List Song
  | [], buckets => buckets
  | track :: rest, (exactMatches, otherMatches) =>
    let trackName := ToLower lower track.Name
    let artistName := ToLower lower track.Artist
    let song := LastFMAdapter.toSong lower track
    if LastFMAdapter.isMainArtist queryTerms artistName &&
        LastFMAdapter.exactTitleMatch queryTerms trackName then
      LastFMAdapter.classify lower queryTerms rest (exactMatches ++ [song], otherMatches)
    else
      LastFMAdapter.classify lower queryTerms rest (exactMatches, otherMatches ++ [song])

/-- The method `LastFMAdapter.SearchSongs`; `none` is a panic (division by a
zero `limit`, or slicing with a negative `limit`). -/
def LastFMAdapter.SearchSongs {σ : Type} (lower : Char → Char) (api : LastFM σ)
    (query : GoString) (limit offset : Int) (s : σ) :
    Option (Except GoError (List Song)) × σ :=
  if limit = 0 then (none, s)
  else
    match api.trackSearch
        { method := "track.search".toList
          text := query
          limit := wrapInt64 (limit * 2)
          page := LastFMAdapter.page limit offset } s with
    | (.getFailed err, s1) =>
      (some (.error (Errorf_v "error making request to Last.fm: ".toList err)), s1)
    | (.readFailed err, s1) =>
      (some (.error (Errorf_v "error reading response body: ".toList err)), s1)
    | (.decodeFailed err, s1) =>
      (some (.error (Errorf_v "error decoding response: ".toList err)), s1)
    | (.decoded tracks, s1) =>
      let queryTerms := Fields (ToLower lower query)
      let buckets := LastFMAdapter.classify lower queryTerms tracks ([], [])
      let songs := buckets.1 ++ buckets.2
      match clampTo songs limit with
      | none => (none, s1)
      | some songs1 => (some (.ok songs1), s1)

/-- The inner loop "Encontrar imagem": the URL of the first image of size
`large`, or the empty string. -/
def LastFMAdapter.artworkURL : List ImageRef → GoString
  | [] => []
  | img :: rest => if img.Size = "large".toList then img.URL else LastFMAdapter.artworkURL rest

/-- The value `album` built for one album match. -/
def LastFMAdapter.toAlbum (lower : Char → Char) (album : AlbumMatch) : Album :=
  let artworkURL := LastFMAdapter.artworkURL album.Image
  let id := LastFMAdapter.songID lower album.Artist album.Name
  { ID := id
    Type_ := "albums".toList
    Href := "/v1/catalog/us/albums/".toList ++ id
    Attributes :=
      { Name := album.Name
        ArtistName := album.Artist
        Artwork := { URL := artworkURL }
        PlayParams := { ID := id, Kind := "album".toList }
        GenreNames := ["Pop".toList]
        IsComplete := true } }

/-- The loop over the decoded albums in `SearchAlbums`, which stops once five
albums are collected. -/
def LastFMAdapter.albumsLoop (lower : Char → Char) : List AlbumMatch → List Album → List Album
  | [], albums => albums
  | album :: rest, albums =>
    let albums1 := albums ++ [LastFMAdapter.toAlbum lower album]
    if albums1.length ≥ 5 then albums1 else LastFMAdapter.albumsLoop lower rest albums1

/-- The method `LastFMAdapter.SearchAlbums`; `none` is a panic (division by a
zero `limit`). -/
def LastFMAdapter.SearchAlbums {σ : Type} (lower : Char → Char) (api : LastFM σ)
    (term : GoString) (limit offset : Int) (s : σ) :
    Option (Except GoError (List Album)) × σ :=
  if limit = 0 then (none, s)
  else
    match api.albumSearch
        { method := "album.search".toList
          text := term
          limit := limit
          page := LastFMAdapter.page limit offset } s with
    | (.getFailed err, s1) =>
      (some (.error (Errorf_w "error making request to Last.fm: ".toList err)), s1)
    | (.readFailed err, s1) =>
      (some (.error (Errorf_w "error reading response body: ".toList err)), s1)
    | (.decodeFailed err, s1) =>
      (some (.error (Errorf_w "error decoding response: ".toList err)), s1)
    | (.decoded found, s1) => (some (.ok (LastFMAdapter.albumsLoop lower found [])), s1)

/-- The value `artist` built for one artist match. -/
def LastFMAdapter.toArtist (lower : Char → Char) (artist : ArtistMatch) : Artist :=
  let artworkURL := LastFMAdapter.artworkURL artist.Image
  let id := LastFMAdapter.artistID lower artist.Name
  { ID := id
    Type_ := "artists".toList
    Href := "/v1/catalog/us/artists/".toList ++ id
    Attributes :=
      { Name := artist.Name
        GenreNames := ["Pop".toList]
        Artwork := { URL := artworkURL } } }

/-- The loop over the decoded artists in `SearchArtists`, which stops once five
artists are collected. -/
def LastFMAdapter.artistsLoop (lower : Char → Char) :
    List ArtistMatch → List Artist → List Artist
  | [], artists => artists
  | artist :: rest, artists =>
    let artists1 := artists ++ [LastFMAdapter.toArtist lower artist]
    if artists1.length ≥ 5 then artists1 else LastFMAdapter.artistsLoop lower rest artists1

/-- The method `LastFMAdapter.SearchArtists`; `none` is a panic (division by a
zero `limit`). -/
def LastFMAdapter.SearchArtists {σ : Type} (lower : Char → Char) (api : LastFM σ)
    (term : GoString) (limit offset : Int) (s : σ) :
    Option (Except GoError (List Artist)) × σ :=
  if limit = 0 then (none, s)
  else
    match api.artistSearch
        { method := "artist.search".toList
          text := term
          limit := limit
          page := LastFMAdapter.page limit offset } s with
    | (.getFailed err, s1) =>
      (some (.error (Errorf_w "error making request to Last.fm: ".toList err)), s1)
    | (.readFailed err, s1) =>
      (some (.error (Errorf_w "error reading response body: ".toList err)), s1)
    | (.decodeFailed err, s1) =>
      (some (.error (Errorf_w "error decoding response: ".toList err)), s1)
    | (.decoded found, s1) => (some (.ok (LastFMAdapter.artistsLoop lower found [])), s1)

/-! ## The reference transform of the identifier synthesiser

This definition follows the words of the specification, not the code: lower-case,
join with a hyphen, then turn every space, slash and backslash into a hyphen. -/

/-- The replacement of one character: a space, a forward slash or a backslash
becomes a hyphen, anything else stays. -/
def specHyphenate (c : Char) : Char :=
  if c = ' ' ∨ c = '/' ∨ c = Char.ofNat 92 then '-' else c

/-- The identifier of the specification for an entity keyed by artist and name. -/
def specSynthesize (lower : Char → Char) (artist name : GoString) : GoString :=
  (artist.map lower ++ ['-'] ++ name.map lower).map specHyphenate

/-- The identifier of the specification for an entity keyed by name only. -/
def specSynthesizeName (lower : Char → Char) (name : GoString) : GoString :=
  (name.map lower).map specHyphenate

/-- Normalisation changes nothing in `x`: it is already lower-case and holds no
space, forward slash or backslash. -/
def alreadyNormalised (lower : Char → Char) (x : GoString) : Prop :=
  ToLower lower x = x ∧ ' ' ∉ x ∧ '/' ∉ x ∧ Char.ofNat 92 ∉ x

instance (lower : Char → Char) (x : GoString) : Decidable (alreadyNormalised lower x) := by
  unfold alreadyNormalised
  infer_instance

/-! ## Reference definitions for the request normaliser

These definitions follow the words of the specification, not the code. -/

/-- A token is one of the three category names. -/
def recognised (tok : GoString) : Bool :=
  tok = "artists".toList ∨ tok = "songs".toList ∨ tok = "albums".toList

/-- The category order of the specification for a `types` parameter: split on
commas, trim white space from each token, keep the tokens that are category
names, in their order of appearance. -/
def specOrder (types : GoString) : List GoString :=
  ((Split types ',').map TrimSpace).filter recognised

/-- The request is rejected by validation: `term` is empty, or `limit` is
present but not parseable as an integer, or `offset` is present but not
parseable as an integer. -/
def SearchRequest.malformed (r : SearchRequest) : Prop :=
  r.term = [] ∨ (r.limit ≠ [] ∧ Atoi r.limit = none) ∨ (r.offset ≠ [] ∧ Atoi r.offset = none)

/-- The normalised limit of the specification: 5 when absent (`none`) or
below 1, 25 when above 25, the value itself otherwise. -/
def specLimit : Option Int → Int
  | none => 5
  | some n => if n < 1 then 5 else if n > 25 then 25 else n

/-- How many entries of a list of strings are equal to `c`. -/
def occurrences (c : GoString) (l : List GoString) : Nat :=
  (l.filter (fun t => decide (t = c))).length

/-- The journal of the service invocations the handler makes for the request
`r` from the state `s`, in order. -/
def SearchHandler.journal {σ : Type} (musicService : MusicServicePort σ) (r : SearchRequest)
    (s : σ) : List SearchParameters :=
  (SearchHandler.Search (loggedService musicService) r (s, [])).2.2

/-! ## Playlists (`internal/core/domain/entities.go`) -/

structure Track where
  ID : GoString := []
  Title : GoString := []
  Artist : GoString := []
  Duration : Int := 0
  Description : GoString := []
  CoverURL : GoString := []
deriving DecidableEq, Repr

structure Playlist where
  ID : GoString := []
  Name : GoString := []
  Description : GoString := []
  CoverURL : GoString := []
  Tracks : List Track := []
deriving DecidableEq, Repr

def MaxTracksPerPlaylist : Nat := 100

/-- The method `Playlist.AddTrack`: the playlist after the call and the error
returned (`none` is `nil`). -/
def Playlist.AddTrack (p : Playlist) (track : Track) : Playlist × Option GoError :=
  if p.Tracks.length ≥ MaxTracksPerPlaylist then
    (p, some (.errorString "playlist has reached the maximum number of tracks".toList))
  else ({ p with Tracks := p.Tracks ++ [track] }, none)

/-- The loop of `Playlist.RemoveTrack`: `updatedTracks` after the given tracks. -/
def Playlist.RemoveTrack.loop (trackID : GoString) : List Track → List Track → List Track
  | [], updatedTracks => updatedTracks
  | track :: rest, updatedTracks =>
    if track.ID ≠ trackID then Playlist.RemoveTrack.loop trackID rest (updatedTracks ++ [track])
    else Playlist.RemoveTrack.loop trackID rest updatedTracks

/-- The method `Playlist.RemoveTrack`: the playlist after the call and the
boolean returned. -/
def Playlist.RemoveTrack (p : Playlist) (trackID : GoString) : Playlist × Bool :=
  let initialLength := p.Tracks.length
  let updatedTracks := Playlist.RemoveTrack.loop trackID p.Tracks []
  ({ p with Tracks := updatedTracks }, decide (updatedTracks.length < initialLength))

/-- One call on a playlist. -/
inductive PlaylistCall where
  | addTrack (track : Track)
  | removeTrack (trackID : GoString)
deriving DecidableEq, Repr

/-- The playlist after a sequence of `AddTrack` and `RemoveTrack` calls, made
in the order of the list. -/
def Playlist.afterCalls : Playlist → List PlaylistCall → Playlist
  | p, [] => p
  | p, .addTrack track :: rest => Playlist.afterCalls (p.AddTrack track).1 rest
  | p, .removeTrack trackID :: rest => Playlist.afterCalls (p.RemoveTrack trackID).1 rest

/-! ## Observing the exchange with Last.fm -/

/-- What Last.fm answered to one request: a decoded list of matches, or a
failure of the request, of reading or of decoding. -/
inductive UpstreamAnswer where
  | tracks (found : List TrackMatch)
  | albums (found : List AlbumMatch)
  | artists (found : List ArtistMatch)
  | failed (err : GoError)
deriving DecidableEq, Repr

/-- One exchange with Last.fm as an observer sees it. -/
structure UpstreamCall where
  request : LastFMRequest
  answer : UpstreamAnswer
deriving DecidableEq, Repr

/-- An answer of Last.fm as a journal entry. -/
def toUpstreamAnswer {α : Type} (ok : List α → UpstreamAnswer) : UpstreamReply α → UpstreamAnswer
  | .getFailed err => .failed err
  | .readFailed err => .failed err
  | .decodeFailed err => .failed err
  | .decoded found => ok found

/-- The web API `api` with a journal next to its state: every request is
answered as `api` answers it and appended to the journal. -/
def LastFM.logged {σ : Type} (api : LastFM σ) : LastFM (σ × List UpstreamCall) where
  trackSearch := fun req st =>
    match api.trackSearch req st.1 with
    | (reply, s1) => (reply, (s1, st.2 ++ [⟨req, toUpstreamAnswer .tracks reply⟩]))
  albumSearch := fun req st =>
    match api.albumSearch req st.1 with
    | (reply, s1) => (reply, (s1, st.2 ++ [⟨req, toUpstreamAnswer .albums reply⟩]))
  artistSearch := fun req st =>
    match api.artistSearch req st.1 with
    | (reply, s1) => (reply, (s1, st.2 ++ [⟨req, toUpstreamAnswer .artists reply⟩]))

/-- The journal of the exchanges `SearchSongs` has with Last.fm. -/
def LastFMAdapter.songsJournal {σ : Type} (lower : Char → Char) (api : LastFM σ)
    (query : GoString) (limit offset : Int) (s : σ) : List UpstreamCall :=
  (LastFMAdapter.SearchSongs lower api.logged query limit offset (s, [])).2.2

/-- The journal of the exchanges `SearchAlbums` has with Last.fm. -/
def LastFMAdapter.albumsJournal {σ : Type} (lower : Char → Char) (api : LastFM σ)
    (term : GoString) (limit offset : Int) (s : σ) : List UpstreamCall :=
  (LastFMAdapter.SearchAlbums lower api.logged term limit offset (s, [])).2.2

/-- The journal of the exchanges `SearchArtists` has with Last.fm. -/
def LastFMAdapter.artistsJournal {σ : Type} (lower : Char → Char) (api : LastFM σ)
    (term : GoString) (limit offset : Int) (s : σ) : List UpstreamCall :=
  (LastFMAdapter.SearchArtists lower api.logged term limit offset (s, [])).2.2

/-! ## Reference definitions for the relevance classifier

These definitions follow the words of the specification, not the code. -/

/-- A candidate is a primary match for a query: some query term is a substring
of the lower-cased artist name, the artist name holds no parenthesis, and some
query term is a substring of the lower-cased track name. The query terms are
the white-space delimited fields of the lower-cased query. -/
def specIsPrimary (lower : Char → Char) (query : GoString) (track : TrackMatch) : Prop :=
  (∃ term ∈ Fields (ToLower lower query), List.IsInfix term (ToLower lower track.Artist)) ∧
    '(' ∉ ToLower lower track.Artist ∧ ')' ∉ ToLower lower track.Artist ∧
    (∃ term ∈ Fields (ToLower lower query), List.IsInfix term (ToLower lower track.Name))

instance (lower : Char → Char) (query : GoString) (track : TrackMatch) :
    Decidable (specIsPrimary lower query track) := by
  unfold specIsPrimary
  infer_instance

/-- The stable partition of the candidates: the songs of the primary matches
in provider order, followed by the songs of the others in provider order. -/
def specPartition (lower : Char → Char) (query : GoString) (tracks : List TrackMatch) :
    List Song :=
  (tracks.filter (fun t => decide (specIsPrimary lower query t))).map (LastFMAdapter.toSong lower)
    ++ (tracks.filter (fun t => !decide (specIsPrimary lower query t))).map
      (LastFMAdapter.toSong lower)

/-! ## Test doubles and sample values used by the worked examples -/

/-- A provider that answers every call with a fixed answer per category, like
the stub providers of the tests. -/
def stubProvider (songs : Except GoError (List Song)) (albums : Except GoError (List Album))
    (artists : Except GoError (List Artist)) : MusicProvider Unit where
  SearchSongs := fun _ _ _ s => (songs, s)
  SearchAlbums := fun _ _ _ s => (albums, s)
  SearchArtists := fun _ _ _ s => (artists, s)

def sampleSong1 : Song := { ID := "1".toList, Type_ := "songs".toList }
def sampleSong2 : Song := { ID := "2".toList, Type_ := "songs".toList }
def sampleArtist : Artist := { ID := "3".toList, Type_ := "artists".toList }

/-- The albums provider fails while songs and artists succeed. -/
def albumsDownProvider : MusicProvider Unit :=
  stubProvider (.ok [sampleSong1]) (.error (.errorString "upstream down".toList))
    (.ok [sampleArtist])

/-- The provider returns two songs for every query. -/
def twoSongsProvider : MusicProvider Unit :=
  stubProvider (.ok [sampleSong1, sampleSong2]) (.ok []) (.ok [sampleArtist])

/-- The parameters of `term=test&limit=1&offset=0` for all three categories. -/
def sampleParams : SearchParameters :=
  { Term := "test".toList, Limit := 1, Offset := 0,
    Types := [ArtistsType, SongsType, AlbumsType] }

/-- The service double of the handler tests (`mockMusicProvider.Search`): three
empty lists next to the configured error. -/
def mockMusicProvider (searchError : Option GoError) : MusicServicePort Unit :=
  fun _ s => (some ⟨some { Artists := [], Songs := [], Albums := [] }, searchError⟩, s)

/-- The request `term=test&limit=1&offset=0` with `types` omitted. -/
def sampleRequest : SearchRequest :=
  { term := "test".toList, limit := "1".toList, offset := "0".toList, types := [] }

/-- The request `term=test&types=songs,artists`. -/
def songsArtistsRequest : SearchRequest :=
  { term := "test".toList, limit := [], offset := [], types := "songs,artists".toList }

/-- The request `term=test&types=playlists`. -/
def playlistsRequest : SearchRequest :=
  { term := "test".toList, limit := [], offset := [], types := "playlists".toList }

/-- The request `term=test&limit=999&offset=-4`. -/
def outOfRangeRequest : SearchRequest :=
  { term := "test".toList, limit := "999".toList, offset := "-4".toList, types := [] }

/-- The request `term=test&limit=0`. -/
def zeroLimitRequest : SearchRequest :=
  { term := "test".toList, limit := "0".toList, offset := [], types := [] }

/-- The request of the test case "Missing term parameter". -/
def missingTermRequest : SearchRequest :=
  { term := [], limit := [], offset := [], types := [] }

/-- The request of the test cases "Successful search with all types" and
"Provider error". -/
def termOnlyRequest : SearchRequest :=
  { term := "test".toList, limit := [], offset := [], types := [] }

/-- The error `assert.AnError` of the test case "Provider error". -/
def AnError : GoError := .errorString "assert.AnError general error for testing".toList

/-- The upstream track `("Test Track", "Test Artist")`. -/
def sampleTrack : TrackMatch := { Name := "Test Track".toList, Artist := "Test Artist".toList }

/-- A Last.fm double that answers every track search with `sampleTrack`. -/
def sampleLastFM : LastFM Unit where
  trackSearch := fun _ s => (.decoded [sampleTrack], s)
  albumSearch := fun _ s => (.decoded [], s)
  artistSearch := fun _ s => (.decoded [], s)

/-- The candidates of the example query `bad guy`. -/
def badGuyTracks : List TrackMatch :=
  [{ Name := "bad guy".toList, Artist := "Billie Eilish".toList },
   { Name := "bad guy (remix)".toList, Artist := "Billie Eilish (feat. X)".toList }]

/-- A Last.fm double that answers every track search with `badGuyTracks`. -/
def badGuyLastFM : LastFM Unit where
  trackSearch := fun _ s => (.decoded badGuyTracks, s)
  albumSearch := fun _ s => (.decoded [], s)
  artistSearch := fun _ s => (.decoded [], s)

/-- Seven album matches `0` to `6` by the artist `A B`. -/
def sevenAlbums : List AlbumMatch :=
  (List.range 7).map (fun n => { Name := formatInt n, Artist := "A B".toList })

/-- Seven artist matches `0` to `6`. -/
def sevenArtists : List ArtistMatch :=
  (List.range 7).map (fun n => { Name := 'N' :: formatInt n })

/-- A Last.fm double that answers every album search with `sevenAlbums` and
every artist search with `sevenArtists`. -/
def sevenAlbumsLastFM : LastFM Unit where
  trackSearch := fun _ s => (.decoded [], s)
  albumSearch := fun _ s => (.decoded sevenAlbums, s)
  artistSearch := fun _ s => (.decoded sevenArtists, s)

/-- Two album matches with different `(artist, name)` pairs, already in lower
case and without space, slash or backslash. -/
def collidingAlbums : List AlbumMatch :=
  [{ Name := "c".toList, Artist := "a-b".toList },
   { Name := "b-c".toList, Artist := "a".toList }]

/-- A Last.fm double that answers every album search with `collidingAlbums`. -/
def collidingAlbumsLastFM : LastFM Unit where
  trackSearch := fun _ s => (.decoded [], s)
  albumSearch := fun _ s => (.decoded collidingAlbums, s)
  artistSearch := fun _ s => (.decoded [], s)

/-- Three candidates for the query `Eilish bad`: the first is no primary match
(its artist holds parentheses), the second and the third are. -/
def eilishTracks : List TrackMatch :=
  [{ Name := "bad guy (remix)".toList, Artist := "Billie Eilish (feat. X)".toList },
   { Name := "bad guy".toList, Artist := "Billie Eilish".toList },
   { Name := "Bad".toList, Artist := "Eilish".toList }]

/-- A Last.fm double that answers every track search with `eilishTracks`. -/
def eilishLastFM : LastFM Unit where
  trackSearch := fun _ s => (.decoded eilishTracks, s)
  albumSearch := fun _ s => (.decoded [], s)
  artistSearch := fun _ s => (.decoded [], s)

/-- The request `term=test&limit=1&offset=9223372036854775807`. -/
def lastPageRequest : SearchRequest :=
  { term := "test".toList, limit := "1".toList, offset := "9223372036854775807".toList,
    types := [] }

/-- A playlist that holds `MaxTracksPerPlaylist` tracks. -/
def fullPlaylist : Playlist :=
  { ID := "full".toList, Tracks := List.replicate 100 { ID := "t".toList } }

/-- A track to add. -/
def sampleNewTrack : Track := { ID := "new".toList, Title := "New".toList }

/-- The request `term=a%26b`, whose term is `a&b`. -/
def ampersandRequest : SearchRequest :=
  { term := "a&b".toList, limit := [], offset := [], types := [] }

/-- The request `term=test&types=songs,songs`. -/
def songsTwiceRequest : SearchRequest :=
  { term := "test".toList, limit := [], offset := [], types := "songs,songs".toList }

/-! # Theorems -/

/-! ## The search aggregator -/

theorem logged_SearchSongs {σ : Type} (p : MusicProvider σ) (term : GoString) (limit offset : Int)
    (s : σ) (log : List ProviderCall) :
    p.logged.SearchSongs term limit offset (s, log) =
      ((p.SearchSongs term limit offset s).1, ((p.SearchSongs term limit offset s).2,
        log ++ [⟨SongsType, term, limit, offset,
          toAnswer .songs (p.SearchSongs term limit offset s).1⟩])) := rfl

theorem logged_SearchAlbums {σ : Type} (p : MusicProvider σ) (term : GoString) (limit offset : Int)
    (s : σ) (log : List ProviderCall) :
    p.logged.SearchAlbums term limit offset (s, log) =
      ((p.SearchAlbums term limit offset s).1, ((p.SearchAlbums term limit offset s).2,
        log ++ [⟨AlbumsType, term, limit, offset,
          toAnswer .albums (p.SearchAlbums term limit offset s).1⟩])) := rfl

theorem logged_SearchArtists {σ : Type} (p : MusicProvider σ) (term : GoString)
    (limit offset : Int) (s : σ) (log : List ProviderCall) :
    p.logged.SearchArtists term limit offset (s, log) =
      ((p.SearchArtists term limit offset s).1, ((p.SearchArtists term limit offset s).2,
        log ++ [⟨ArtistsType, term, limit, offset,
          toAnswer .artists (p.SearchArtists term limit offset s).1⟩])) := rfl

/-- A journal without failures stays so when a call that answered with a list
is appended. -/
theorem noFailure_snoc (log : List ProviderCall) (c : ProviderCall)
    (hlog : ∀ d ∈ log, d.err = none) (hc : c.err = none) : ∀ d ∈ log ++ [c], d.err = none := by
  intro d hd
  simp only [List.mem_append, List.mem_singleton] at hd
  rcases hd with hd | hd
  · exact hlog d hd
  · subst hd; exact hc

/-- The journal does not change what the loop returns nor the state the
provider is left in. -/
theorem searchLoop_logged_eq {σ : Type} (p : MusicProvider σ) (params : SearchParameters)
    (types : List SearchResultType) :
    ∀ (results : SearchResults) (s : σ) (log : List ProviderCall),
      (MusicService.searchLoop p.logged params types results (s, log)).1 =
          (MusicService.searchLoop p params types results s).1 ∧
        (MusicService.searchLoop p.logged params types results (s, log)).2.1 =
          (MusicService.searchLoop p params types results s).2 := by
  induction types with
  | nil => intro results s log; exact ⟨rfl, rfl⟩
  | cons t rest ih =>
    intro results s log
    simp only [MusicService.searchLoop]
    split_ifs with h1 h2 h3
    · rw [logged_SearchSongs]
      rcases p.SearchSongs params.Term params.Limit params.Offset s with ⟨reply, s1⟩
      cases reply with
      | error err => exact ⟨rfl, rfl⟩
      | ok songs =>
        simp only
        cases clampTo songs params.Limit with
        | none => exact ⟨rfl, rfl⟩
        | some songs1 => exact ih _ _ _
    · rw [logged_SearchAlbums]
      rcases p.SearchAlbums params.Term params.Limit params.Offset s with ⟨reply, s1⟩
      cases reply with
      | error err => exact ⟨rfl, rfl⟩
      | ok albums =>
        simp only
        cases clampTo albums params.Limit with
        | none => exact ⟨rfl, rfl⟩
        | some albums1 => exact ih _ _ _
    · rw [logged_SearchArtists]
      rcases p.SearchArtists params.Term params.Limit params.Offset s with ⟨reply, s1⟩
      cases reply with
      | error err => exact ⟨rfl, rfl⟩
      | ok artists =>
        simp only
        cases clampTo artists params.Limit with
        | none => exact ⟨rfl, rfl⟩
        | some artists1 => exact ih _ _ _
    · exact ih results s log

/-- Once the journal holds a failed call, the loop has returned the pair of a
`nil` result and an error. -/
theorem searchLoop_logged_failure {σ : Type} (p : MusicProvider σ) (params : SearchParameters)
    (types : List SearchResultType) :
    ∀ (results : SearchResults) (s : σ) (log : List ProviderCall),
      (∀ c ∈ log, c.err = none) →
      (∃ c ∈ (MusicService.searchLoop p.logged params types results (s, log)).2.2, c.err ≠ none) →
      ∃ e, (MusicService.searchLoop p.logged params types results (s, log)).1 =
        some ⟨none, some e⟩ := by
  induction types with
  | nil =>
    intro results s log hlog ⟨c, hc, hne⟩
    simp only [MusicService.searchLoop] at hc
    exact absurd (hlog c hc) hne
  | cons t rest ih =>
    intro results s log hlog
    simp only [MusicService.searchLoop]
    split_ifs with h1 h2 h3
    · rw [logged_SearchSongs]
      rcases p.SearchSongs params.Term params.Limit params.Offset s with ⟨reply, s1⟩
      cases reply with
      | error err => intro _; exact ⟨_, rfl⟩
      | ok songs =>
        simp only
        cases clampTo songs params.Limit with
        | none =>
          rintro ⟨c, hc, hne⟩
          exact absurd (noFailure_snoc log _ hlog (by rfl) c hc) hne
        | some songs1 => exact ih _ _ _ (noFailure_snoc log _ hlog (by rfl))
    · rw [logged_SearchAlbums]
      rcases p.SearchAlbums params.Term params.Limit params.Offset s with ⟨reply, s1⟩
      cases reply with
      | error err => intro _; exact ⟨_, rfl⟩
      | ok albums =>
        simp only
        cases clampTo albums params.Limit with
        | none =>
          rintro ⟨c, hc, hne⟩
          exact absurd (noFailure_snoc log _ hlog (by rfl) c hc) hne
        | some albums1 => exact ih _ _ _ (noFailure_snoc log _ hlog (by rfl))
    · rw [logged_SearchArtists]
      rcases p.SearchArtists params.Term params.Limit params.Offset s with ⟨reply, s1⟩
      cases reply with
      | error err => intro _; exact ⟨_, rfl⟩
      | ok artists =>
        simp only
        cases clampTo artists params.Limit with
        | none =>
          rintro ⟨c, hc, hne⟩
          exact absurd (noFailure_snoc log _ hlog (by rfl) c hc) hne
        | some artists1 => exact ih _ _ _ (noFailure_snoc log _ hlog (by rfl))
    · exact ih results s log hlog

/-- C1. `MusicService.Search` is all-or-nothing: if any provider call that
`Search` makes for `params` answers with an error, then `Search` returns, and
what it returns is a `nil` result together with a non-`nil` error. -/
theorem MusicService.Search_all_or_nothing {σ : Type} (p : MusicProvider σ)
    (params : SearchParameters) (s : σ)
    (hfail : ∃ c ∈ MusicService.journal p params s, c.err ≠ none) :
    ∃ e, (MusicService.Search p params s).1 = some ⟨none, some e⟩ := by
  obtain ⟨e, he⟩ := searchLoop_logged_failure p params params.Types {} s []
    (by intro c hc; cases hc) hfail
  exact ⟨e, ((searchLoop_logged_eq p params params.Types {} s []).1).symm.trans he⟩

/-- C1, worked example: the albums provider fails while songs and artists
succeed, and `Search` returns an error and no result. -/
theorem MusicService.Search_all_or_nothing_witness :
    (∃ c ∈ MusicService.journal albumsDownProvider sampleParams (), c.err ≠ none) ∧
      ∃ e, (MusicService.Search albumsDownProvider sampleParams ()).1 = some ⟨none, some e⟩ :=
  ⟨by decide, MusicService.Search_all_or_nothing albumsDownProvider sampleParams () (by decide)⟩

/-- With a limit that is not negative the truncation does not panic and keeps
the first `limit` elements. -/
theorem clampTo_of_nonneg {α : Type} (xs : List α) (limit : Int) (h : 0 ≤ limit) :
    clampTo xs limit = some (xs.take limit.toNat) := by
  unfold clampTo sliceTo
  by_cases hlen : (xs.length : Int) > limit
  · rw [if_pos hlen, if_pos ⟨h, le_of_lt hlen⟩]
  · rw [if_neg hlen, List.take_of_length_le]
    omega


theorem lastSongs_cons (init : Option (List Song)) (c : ProviderCall) (cs : List ProviderCall) :
    lastSongs init (c :: cs) =
      lastSongs (match c.answer with | .songs list => some list | _ => init) cs := rfl

theorem lastAlbums_cons (init : Option (List Album)) (c : ProviderCall) (cs : List ProviderCall) :
    lastAlbums init (c :: cs) =
      lastAlbums (match c.answer with | .albums list => some list | _ => init) cs := rfl

theorem lastArtists_cons (init : Option (List Artist)) (c : ProviderCall)
    (cs : List ProviderCall) :
    lastArtists init (c :: cs) =
      lastArtists (match c.answer with | .artists list => some list | _ => init) cs := rfl

/-- When no call in the journal failed and the limit is not negative, the loop
returns a result without an error; the calls it added to the journal are `new`,
and each list of the result is the truncated last answer for its category, or
the list the loop started with when the category is not among `types`. -/
theorem searchLoop_logged_success {σ : Type} (p : MusicProvider σ) (params : SearchParameters)
    (hlim : 0 ≤ params.Limit) (types : List SearchResultType) :
    ∀ (results : SearchResults) (s : σ) (log : List ProviderCall),
      (∀ c ∈ (MusicService.searchLoop p.logged params types results (s, log)).2.2, c.err = none) →
      ∃ r new,
        (MusicService.searchLoop p.logged params types results (s, log)).1 =
          some ⟨some r, none⟩ ∧
        (MusicService.searchLoop p.logged params types results (s, log)).2.2 = log ++ new ∧
        (SongsType ∈ types → ∀ init, ∃ l, lastSongs init new = some l ∧
          r.Songs = l.take params.Limit.toNat) ∧
        (SongsType ∉ types → r.Songs = results.Songs ∧ ∀ init, lastSongs init new = init) ∧
        (AlbumsType ∈ types → ∀ init, ∃ l, lastAlbums init new = some l ∧
          r.Albums = l.take params.Limit.toNat) ∧
        (AlbumsType ∉ types → r.Albums = results.Albums ∧ ∀ init, lastAlbums init new = init) ∧
        (ArtistsType ∈ types → ∀ init, ∃ l, lastArtists init new = some l ∧
          r.Artists = l.take params.Limit.toNat) ∧
        (ArtistsType ∉ types → r.Artists = results.Artists ∧ ∀ init, lastArtists init new = init) := by
  induction types with
  | nil =>
    intro results s log _
    refine ⟨results, [], rfl, by simp [MusicService.searchLoop], ?_, ?_, ?_, ?_, ?_, ?_⟩ <;>
      simp [lastSongs, lastAlbums, lastArtists]
  | cons t rest ih =>
    intro results s log
    simp only [MusicService.searchLoop]
    split_ifs with h1 h2 h3
    · rw [logged_SearchSongs]
      rcases p.SearchSongs params.Term params.Limit params.Offset s with ⟨reply, s1⟩
      cases reply with
      | error err =>
        intro hok
        have hbad := hok ⟨SongsType, params.Term, params.Limit, params.Offset, .failed err⟩
          (by simp [toAnswer])
        simp [ProviderCall.err] at hbad
      | ok songs =>
        simp only [clampTo_of_nonneg _ _ hlim]
        intro hok
        obtain ⟨r, new, hr, hj, hSin, hSout, hAin, hAout, hRin, hRout⟩ := ih _ _ _ hok
        refine ⟨r, ⟨SongsType, params.Term, params.Limit, params.Offset, .songs songs⟩ :: new,
          hr, by rw [hj]; simp [toAnswer], ?_, ?_, ?_, ?_, ?_, ?_⟩
        · intro _ init
          rw [lastSongs_cons]
          by_cases hmem : SongsType ∈ rest
          · exact hSin hmem _
          · obtain ⟨hrs, hinit⟩ := hSout hmem
            exact ⟨songs, by rw [hinit], hrs⟩
        · intro hmem
          exact absurd (h1 ▸ List.mem_cons_self _ _) hmem
        · intro hmem init
          rw [lastAlbums_cons]
          exact hAin (by
            rcases List.mem_cons.mp hmem with h | h
            · exact absurd (h1.symm.trans h.symm) (by decide)
            · exact h) _
        · intro hmem
          obtain ⟨hrs, hinit⟩ := hAout (fun h => hmem (List.mem_cons_of_mem _ h))
          exact ⟨hrs, fun init => by rw [lastAlbums_cons]; exact hinit _⟩
        · intro hmem init
          rw [lastArtists_cons]
          exact hRin (by
            rcases List.mem_cons.mp hmem with h | h
            · exact absurd (h1.symm.trans h.symm) (by decide)
            · exact h) _
        · intro hmem
          obtain ⟨hrs, hinit⟩ := hRout (fun h => hmem (List.mem_cons_of_mem _ h))
          exact ⟨hrs, fun init => by rw [lastArtists_cons]; exact hinit _⟩
    · rw [logged_SearchAlbums]
      rcases p.SearchAlbums params.Term params.Limit params.Offset s with ⟨reply, s1⟩
      cases reply with
      | error err =>
        intro hok
        have hbad := hok ⟨AlbumsType, params.Term, params.Limit, params.Offset, .failed err⟩
          (by simp [toAnswer])
        simp [ProviderCall.err] at hbad
      | ok albums =>
        simp only [clampTo_of_nonneg _ _ hlim]
        intro hok
        obtain ⟨r, new, hr, hj, hSin, hSout, hAin, hAout, hRin, hRout⟩ := ih _ _ _ hok
        refine ⟨r, ⟨AlbumsType, params.Term, params.Limit, params.Offset, .albums albums⟩ :: new,
          hr, by rw [hj]; simp [toAnswer], ?_, ?_, ?_, ?_, ?_, ?_⟩
        · intro hmem init
          rw [lastSongs_cons]
          exact hSin (by
            rcases List.mem_cons.mp hmem with h | h
            · exact absurd (h2.symm.trans h.symm) (by decide)
            · exact h) _
        · intro hmem
          obtain ⟨hrs, hinit⟩ := hSout (fun h => hmem (List.mem_cons_of_mem _ h))
          exact ⟨hrs, fun init => by rw [lastSongs_cons]; exact hinit _⟩
        · intro _ init
          rw [lastAlbums_cons]
          by_cases hmem : AlbumsType ∈ rest
          · exact hAin hmem _
          · obtain ⟨hrs, hinit⟩ := hAout hmem
            exact ⟨albums, by rw [hinit], hrs⟩
        · intro hmem
          exact absurd (h2 ▸ List.mem_cons_self _ _) hmem
        · intro hmem init
          rw [lastArtists_cons]
          exact hRin (by
            rcases List.mem_cons.mp hmem with h | h
            · exact absurd (h2.symm.trans h.symm) (by decide)
            · exact h) _
        · intro hmem
          obtain ⟨hrs, hinit⟩ := hRout (fun h => hmem (List.mem_cons_of_mem _ h))
          exact ⟨hrs, fun init => by rw [lastArtists_cons]; exact hinit _⟩
    · rw [logged_SearchArtists]
      rcases p.SearchArtists params.Term params.Limit params.Offset s with ⟨reply, s1⟩
      cases reply with
      | error err =>
        intro hok
        have hbad := hok ⟨ArtistsType, params.Term, params.Limit, params.Offset, .failed err⟩
          (by simp [toAnswer])
        simp [ProviderCall.err] at hbad
      | ok artists =>
        simp only [clampTo_of_nonneg _ _ hlim]
        intro hok
        obtain ⟨r, new, hr, hj, hSin, hSout, hAin, hAout, hRin, hRout⟩ := ih _ _ _ hok
        refine ⟨r, ⟨ArtistsType, params.Term, params.Limit, params.Offset, .artists artists⟩ :: new,
          hr, by rw [hj]; simp [toAnswer], ?_, ?_, ?_, ?_, ?_, ?_⟩
        · intro hmem init
          rw [lastSongs_cons]
          exact hSin (by
            rcases List.mem_cons.mp hmem with h | h
            · exact absurd (h3.symm.trans h.symm) (by decide)
            · exact h) _
        · intro hmem
          obtain ⟨hrs, hinit⟩ := hSout (fun h => hmem (List.mem_cons_of_mem _ h))
          exact ⟨hrs, fun init => by rw [lastSongs_cons]; exact hinit _⟩
        · intro hmem init
          rw [lastAlbums_cons]
          exact hAin (by
            rcases List.mem_cons.mp hmem with h | h
            · exact absurd (h3.symm.trans h.symm) (by decide)
            · exact h) _
        · intro hmem
          obtain ⟨hrs, hinit⟩ := hAout (fun h => hmem (List.mem_cons_of_mem _ h))
          exact ⟨hrs, fun init => by rw [lastAlbums_cons]; exact hinit _⟩
        · intro _ init
          rw [lastArtists_cons]
          by_cases hmem : ArtistsType ∈ rest
          · exact hRin hmem _
          · obtain ⟨hrs, hinit⟩ := hRout hmem
            exact ⟨artists, by rw [hinit], hrs⟩
        · intro hmem
          exact absurd (h3 ▸ List.mem_cons_self _ _) hmem
    · intro hok
      obtain ⟨r, new, hr, hj, hSin, hSout, hAin, hAout, hRin, hRout⟩ := ih _ _ _ hok
      refine ⟨r, new, hr, hj, ?_, ?_, ?_, ?_, ?_, ?_⟩
      · intro hmem
        exact hSin (by
          rcases List.mem_cons.mp hmem with h | h
          · exact absurd h.symm h1
          · exact h)
      · intro hmem
        exact hSout (fun h => hmem (List.mem_cons_of_mem _ h))
      · intro hmem
        exact hAin (by
          rcases List.mem_cons.mp hmem with h | h
          · exact absurd h.symm h2
          · exact h)
      · intro hmem
        exact hAout (fun h => hmem (List.mem_cons_of_mem _ h))
      · intro hmem
        exact hRin (by
          rcases List.mem_cons.mp hmem with h | h
          · exact absurd h.symm h3
          · exact h)
      · intro hmem
        exact hRout (fun h => hmem (List.mem_cons_of_mem _ h))

/-- Taking the first `min n (length xs)` elements is taking the first `n`. -/
theorem take_min_length {α : Type} (xs : List α) (n : Nat) :
    xs.take (min n xs.length) = xs.take n := by
  rcases Nat.le_total n xs.length with h | h
  · rw [Nat.min_eq_left h]
  · rw [Nat.min_eq_right h, List.take_length, List.take_of_length_le h]

/-- The first `limit` elements are at most `limit` many. -/
theorem length_take_toNat_le {α : Type} (xs : List α) (limit : Int) (h : 0 ≤ limit) :
    ((xs.take limit.toNat).length : Int) ≤ limit := by
  rw [List.length_take]
  omega

/-- C2. For a limit that is not negative and a provider whose calls all
succeed, `MusicService.Search` returns a result without an error, and each
requested category list of it is exactly the first `min(Limit, n)` items of the
`n`-item list the provider answered for that category (the last such answer in
the journal of the calls), so that it has at most `Limit` items. -/
theorem MusicService.Search_truncates {σ : Type} (p : MusicProvider σ)
    (params : SearchParameters) (s : σ) (hlim : 0 ≤ params.Limit)
    (hok : ∀ c ∈ MusicService.journal p params s, c.err = none) :
    ∃ r, (MusicService.Search p params s).1 = some ⟨some r, none⟩ ∧
      (SongsType ∈ params.Types → ∃ l, lastSongs none (MusicService.journal p params s) = some l ∧
        r.Songs = l.take (min params.Limit.toNat l.length) ∧
        (r.Songs.length : Int) ≤ params.Limit) ∧
      (AlbumsType ∈ params.Types →
        ∃ l, lastAlbums none (MusicService.journal p params s) = some l ∧
        r.Albums = l.take (min params.Limit.toNat l.length) ∧
        (r.Albums.length : Int) ≤ params.Limit) ∧
      (ArtistsType ∈ params.Types →
        ∃ l, lastArtists none (MusicService.journal p params s) = some l ∧
        r.Artists = l.take (min params.Limit.toNat l.length) ∧
        (r.Artists.length : Int) ≤ params.Limit) := by
  obtain ⟨r, new, hr, hj, hS, _, hA, _, hR, _⟩ :=
    searchLoop_logged_success p params hlim params.Types {} s [] hok
  have hjournal : MusicService.journal p params s = new := by
    simpa [MusicService.journal, MusicService.Search] using hj
  refine ⟨r, ((searchLoop_logged_eq p params params.Types {} s []).1).symm.trans hr, ?_, ?_, ?_⟩
  · intro hmem
    obtain ⟨l, hl, hrl⟩ := hS hmem none
    refine ⟨l, by rw [hjournal]; exact hl, by rw [take_min_length]; exact hrl, ?_⟩
    rw [hrl]; exact length_take_toNat_le l _ hlim
  · intro hmem
    obtain ⟨l, hl, hrl⟩ := hA hmem none
    refine ⟨l, by rw [hjournal]; exact hl, by rw [take_min_length]; exact hrl, ?_⟩
    rw [hrl]; exact length_take_toNat_le l _ hlim
  · intro hmem
    obtain ⟨l, hl, hrl⟩ := hR hmem none
    refine ⟨l, by rw [hjournal]; exact hl, by rw [take_min_length]; exact hrl, ?_⟩
    rw [hrl]; exact length_take_toNat_le l _ hlim

/-- C2, worked example: with `limit=1` and a provider returning two songs the
result has one song, the first. -/
theorem MusicService.Search_truncates_witness :
    (0 ≤ sampleParams.Limit ∧
      ∀ c ∈ MusicService.journal twoSongsProvider sampleParams (), c.err = none) ∧
    ∃ r, (MusicService.Search twoSongsProvider sampleParams ()).1 = some ⟨some r, none⟩ ∧
      (SongsType ∈ sampleParams.Types →
        ∃ l, lastSongs none (MusicService.journal twoSongsProvider sampleParams ()) = some l ∧
        r.Songs = l.take (min sampleParams.Limit.toNat l.length) ∧
        (r.Songs.length : Int) ≤ sampleParams.Limit) ∧
      (AlbumsType ∈ sampleParams.Types →
        ∃ l, lastAlbums none (MusicService.journal twoSongsProvider sampleParams ()) = some l ∧
        r.Albums = l.take (min sampleParams.Limit.toNat l.length) ∧
        (r.Albums.length : Int) ≤ sampleParams.Limit) ∧
      (ArtistsType ∈ sampleParams.Types →
        ∃ l, lastArtists none (MusicService.journal twoSongsProvider sampleParams ()) = some l ∧
        r.Artists = l.take (min sampleParams.Limit.toNat l.length) ∧
        (r.Artists.length : Int) ≤ sampleParams.Limit) :=
  ⟨⟨by decide, by decide⟩,
    MusicService.Search_truncates twoSongsProvider sampleParams () (by decide) (by decide)⟩

/-! ## The HTTP handler -/

/-- The loop over the tokens of `types` appends the recognised tokens. -/
theorem parseTypes_foldl (toks : List GoString) :
    ∀ acc : List SearchResultType,
      toks.foldl
        (fun types t =>
          let tok := TrimSpace t
          if tok = "artists".toList then types ++ [ArtistsType]
          else if tok = "songs".toList then types ++ [SongsType]
          else if tok = "albums".toList then types ++ [AlbumsType]
          else types)
        acc = acc ++ (toks.map TrimSpace).filter recognised := by
  induction toks with
  | nil => intro acc; simp
  | cons t rest ih =>
    intro acc
    rw [List.foldl_cons, ih, List.map_cons, List.filter_cons]
    by_cases h1 : TrimSpace t = "artists".toList
    · simp [h1, recognised, ArtistsType]
    · by_cases h2 : TrimSpace t = "songs".toList
      · simp [h2, recognised, SongsType]
      · by_cases h3 : TrimSpace t = "albums".toList
        · simp [h3, recognised, AlbumsType]
        · simp only [String.toList] at h1 h2 h3
          simp [h1, h2, h3, recognised]

/-- For a non-empty `types` parameter the handler's category list is the order
of the specification. -/
theorem parseTypes_eq_specOrder (types : GoString) (h : types ≠ []) :
    SearchHandler.parseTypes types = specOrder types := by
  unfold SearchHandler.parseTypes specOrder
  rw [if_pos h, parseTypes_foldl, List.nil_append]

/-- Every category the handler asks for is one of the three category names. -/
theorem parseTypes_recognised (types : GoString) :
    ∀ t ∈ SearchHandler.parseTypes types, recognised t = true := by
  by_cases h : types = []
  · subst h
    decide
  · rw [parseTypes_eq_specOrder types h]
    intro t ht
    exact (List.mem_filter.mp ht).2

/-- The response assembly appends to `Order` the recognised categories, in the
order of the list. -/
theorem assemble_order (term : GoString) (limit offset : Int) (results : Option SearchResults)
    (types : List SearchResultType) :
    ∀ (response body : SearchResponse),
      SearchHandler.assemble term limit offset results types response = some body →
      body.Order = response.Order ++ types.filter recognised := by
  induction types with
  | nil =>
    intro response body h
    simp only [SearchHandler.assemble, Option.some.injEq] at h
    simp [h]
  | cons t rest ih =>
    intro response body
    simp only [SearchHandler.assemble]
    split_ifs with h1 h2 h3
    · cases results with
      | none => intro h; cases h
      | some res =>
        intro h
        rw [ih _ _ h, h1]
        simp [recognised, ArtistsType]
    · cases results with
      | none => intro h; cases h
      | some res =>
        intro h
        rw [ih _ _ h, h2]
        simp [recognised, SongsType]
    · cases results with
      | none => intro h; cases h
      | some res =>
        intro h
        rw [ih _ _ h, h3]
        simp [recognised, AlbumsType]
    · intro h
      rw [ih _ _ h]
      have : recognised t = false := by
        simp only [ArtistsType, SongsType, AlbumsType, String.toList] at h1 h2 h3
        simp [recognised, h1, h2, h3]
      simp [this]

/-- With a result to read from, the response assembly does not panic. -/
theorem assemble_isSome (term : GoString) (limit offset : Int) (res : SearchResults)
    (types : List SearchResultType) :
    ∀ response : SearchResponse,
      ∃ body, SearchHandler.assemble term limit offset (some res) types response = some body := by
  induction types with
  | nil => intro response; exact ⟨response, rfl⟩
  | cons t rest ih =>
    intro response
    simp only [SearchHandler.assemble]
    split_ifs <;> exact ih _

/-- The limit block accepts an absent or parseable `limit` and yields the
normalised limit of the specification. -/
theorem parseLimit_of_valid (limitStr : GoString)
    (h : limitStr = [] ∨ ∃ n, Atoi limitStr = some n) :
    SearchHandler.parseLimit limitStr = some (specLimit (Atoi limitStr)) := by
  unfold SearchHandler.parseLimit
  by_cases hempty : limitStr = []
  · subst hempty
    rfl
  · rcases h with h | ⟨n, hn⟩
    · exact absurd h hempty
    · rw [if_pos hempty, hn]
      simp only [specLimit]
      split_ifs <;> rfl

/-- The limit block rejects a `limit` that is present and not parseable. -/
theorem parseLimit_of_invalid (limitStr : GoString) (h1 : limitStr ≠ [])
    (h2 : Atoi limitStr = none) : SearchHandler.parseLimit limitStr = none := by
  unfold SearchHandler.parseLimit
  rw [if_pos h1, h2]

/-- The offset block accepts an absent or parseable `offset` and yields an
offset that is not negative. -/
theorem parseOffset_of_valid (offsetStr : GoString)
    (h : offsetStr = [] ∨ ∃ n, Atoi offsetStr = some n) :
    ∃ offset, SearchHandler.parseOffset offsetStr = some offset ∧ 0 ≤ offset := by
  unfold SearchHandler.parseOffset
  by_cases hempty : offsetStr = []
  · exact ⟨0, by rw [if_neg (not_not.mpr hempty)], le_refl 0⟩
  · rcases h with h | ⟨n, hn⟩
    · exact absurd h hempty
    · rw [if_pos hempty, hn]
      by_cases hneg : n < 0
      · exact ⟨0, by simp [hneg], le_refl 0⟩
      · exact ⟨n, by simp [hneg], not_lt.mp hneg⟩

/-- The offset block rejects an `offset` that is present and not parseable. -/
theorem parseOffset_of_invalid (offsetStr : GoString) (h1 : offsetStr ≠ [])
    (h2 : Atoi offsetStr = none) : SearchHandler.parseOffset offsetStr = none := by
  unfold SearchHandler.parseOffset
  rw [if_pos h1, h2]

/-- The normalised limit of the specification lies between 1 and 25. -/
theorem specLimit_bounds (raw : Option Int) : 1 ≤ specLimit raw ∧ specLimit raw ≤ 25 := by
  cases raw with
  | none => exact ⟨by decide, by decide⟩
  | some n =>
    simp only [specLimit]
    split_ifs <;> omega

/-- A request that passes validation reaches the service exactly once, with
the normalised parameters, and the response is made of what the service
returns. -/
theorem handler_of_valid {σ : Type} (svc : MusicServicePort σ) (r : SearchRequest) (s : σ)
    (limit offset : Int) (hterm : r.term ≠ [])
    (hl : SearchHandler.parseLimit r.limit = some limit)
    (ho : SearchHandler.parseOffset r.offset = some offset) :
    SearchHandler.journal svc r s =
        [⟨r.term, limit, offset, SearchHandler.parseTypes r.types⟩] ∧
      (SearchHandler.Search svc r s).1 =
        match (svc ⟨r.term, limit, offset, SearchHandler.parseTypes r.types⟩ s).1 with
        | none => none
        | some ⟨_, some err⟩ =>
          some (.error ("error performing search: ".toList ++ err.Error)
            StatusInternalServerError)
        | some ⟨results, none⟩ =>
          (SearchHandler.assemble r.term limit offset results
            (SearchHandler.parseTypes r.types) {}).map HTTPResponse.json := by
  unfold SearchHandler.journal SearchHandler.Search
  simp only [if_neg hterm, hl, ho, loggedService]
  rcases svc ⟨r.term, limit, offset, SearchHandler.parseTypes r.types⟩ s with ⟨ret, s1⟩
  cases ret with
  | none => exact ⟨rfl, rfl⟩
  | some ret =>
    rcases ret with ⟨results, err⟩
    cases err with
    | some e => exact ⟨rfl, rfl⟩
    | none =>
      simp only
      cases SearchHandler.assemble r.term limit offset results
        (SearchHandler.parseTypes r.types) {} with
      | none => exact ⟨rfl, rfl⟩
      | some body => exact ⟨rfl, rfl⟩

/-- A request that fails validation is answered with status 400 and never
reaches the service. -/
theorem handler_of_malformed {σ : Type} (svc : MusicServicePort σ) (r : SearchRequest) (s : σ)
    (h : r.malformed) :
    (SearchHandler.Search svc r s).1.map HTTPResponse.status = some 400 ∧
      SearchHandler.journal svc r s = [] := by
  unfold SearchHandler.journal SearchHandler.Search
  by_cases hterm : r.term = []
  · simp [hterm, HTTPResponse.status, StatusBadRequest]
  · rcases h with h | ⟨h1, h2⟩ | ⟨h1, h2⟩
    · exact absurd h hterm
    · simp [hterm, parseLimit_of_invalid _ h1 h2, HTTPResponse.status, StatusBadRequest]
    · cases hl : SearchHandler.parseLimit r.limit <;>
        simp [hterm, hl, parseOffset_of_invalid _ h1 h2, HTTPResponse.status, StatusBadRequest]

/-- A request that is not malformed has a normalised limit and offset. -/
theorem valid_of_not_malformed (r : SearchRequest) (h : ¬ r.malformed) :
    r.term ≠ [] ∧ (r.limit = [] ∨ ∃ n, Atoi r.limit = some n) ∧
      (r.offset = [] ∨ ∃ n, Atoi r.offset = some n) := by
  unfold SearchRequest.malformed at h
  simp only [not_or, not_and] at h
  obtain ⟨h1, h2, h3⟩ := h
  refine ⟨h1, ?_, ?_⟩
  · by_cases he : r.limit = []
    · exact Or.inl he
    · exact Or.inr (Option.ne_none_iff_exists'.mp (h2 he))
  · by_cases he : r.offset = []
    · exact Or.inl he
    · exact Or.inr (Option.ne_none_iff_exists'.mp (h3 he))

/-- A JSON response is only written for a request that passed validation, for
which the service returned without an error and the assembly went through. -/
theorem json_response_inv {σ : Type} (svc : MusicServicePort σ) (r : SearchRequest) (s : σ)
    (body : SearchResponse) (hresp : (SearchHandler.Search svc r s).1 = some (.json body)) :
    ∃ limit offset results,
      SearchHandler.journal svc r s =
          [⟨r.term, limit, offset, SearchHandler.parseTypes r.types⟩] ∧
        SearchHandler.assemble r.term limit offset results
          (SearchHandler.parseTypes r.types) {} = some body := by
  by_cases hbad : r.malformed
  · have h400 := (handler_of_malformed svc r s hbad).1
    rw [hresp] at h400
    simp [HTTPResponse.status] at h400
  · obtain ⟨hterm, hlimit, hoffset⟩ := valid_of_not_malformed r hbad
    obtain ⟨offset, ho, _⟩ := parseOffset_of_valid r.offset hoffset
    obtain ⟨hj, hr⟩ := handler_of_valid svc r s _ offset hterm
      (parseLimit_of_valid r.limit hlimit) ho
    refine ⟨specLimit (Atoi r.limit), offset, ?_⟩
    rw [hresp] at hr
    rcases hsvc : (svc ⟨r.term, specLimit (Atoi r.limit), offset,
      SearchHandler.parseTypes r.types⟩ s).1 with _ | ⟨results, err⟩
    · rw [hsvc] at hr; cases hr
    · rw [hsvc] at hr
      cases err with
      | some e => cases hr
      | none =>
        simp only at hr
        cases hasm : SearchHandler.assemble r.term (specLimit (Atoi r.limit)) offset results
          (SearchHandler.parseTypes r.types) {} with
        | none => rw [hasm] at hr; cases hr
        | some body1 =>
          rw [hasm] at hr
          simp only [Option.map_some', Option.some.injEq, HTTPResponse.json.injEq] at hr
          exact ⟨results, hj, by rw [hr]; exact hasm⟩

/-- The order of a JSON response is the category list the handler asked for. -/
theorem json_response_order {σ : Type} (svc : MusicServicePort σ) (r : SearchRequest) (s : σ)
    (body : SearchResponse) (hresp : (SearchHandler.Search svc r s).1 = some (.json body)) :
    body.Order = SearchHandler.parseTypes r.types := by
  obtain ⟨limit, offset, results, _, hasm⟩ := json_response_inv svc r s body hresp
  rw [assemble_order _ _ _ _ _ _ _ hasm]
  exact List.filter_eq_self.mpr (parseTypes_recognised r.types)

/-- Whatever the request, the handler invokes the service at most with the
category list it parsed. -/
theorem journal_types {σ : Type} (svc : MusicServicePort σ) (r : SearchRequest) (s : σ) :
    ∀ params ∈ SearchHandler.journal svc r s, params.Types = SearchHandler.parseTypes r.types := by
  by_cases hbad : r.malformed
  · rw [(handler_of_malformed svc r s hbad).2]
    intro params h; cases h
  · obtain ⟨hterm, hlimit, hoffset⟩ := valid_of_not_malformed r hbad
    obtain ⟨offset, ho, _⟩ := parseOffset_of_valid r.offset hoffset
    rw [(handler_of_valid svc r s _ offset hterm (parseLimit_of_valid r.limit hlimit) ho).1]
    intro params h
    rw [List.mem_singleton] at h
    rw [h]

/-- C3. For every successful request whose `types` parameter is non-empty, the
order in the response (`meta.results.order`) is exactly the sequence obtained
by splitting `types` on commas, trimming each token and keeping the tokens
that are `artists`, `songs` or `albums`, in their order of appearance; the
same list is what the handler passed to the service. -/
theorem SearchHandler.order_is_request_order {σ : Type} (svc : MusicServicePort σ)
    (r : SearchRequest) (s : σ) (body : SearchResponse) (htypes : r.types ≠ [])
    (hresp : (SearchHandler.Search svc r s).1 = some (.json body)) :
    body.Order = specOrder r.types ∧
      ∀ params ∈ SearchHandler.journal svc r s, params.Types = specOrder r.types := by
  rw [← parseTypes_eq_specOrder r.types htypes]
  exact ⟨json_response_order svc r s body hresp, journal_types svc r s⟩

/-- C3, worked example: `types=songs,artists` gives the order
`["songs", "artists"]`. -/
theorem SearchHandler.order_is_request_order_witness :
    songsArtistsRequest.types ≠ [] ∧
      ∃ body, (SearchHandler.Search (mockMusicProvider none) songsArtistsRequest ()).1 =
          some (.json body) ∧
        specOrder songsArtistsRequest.types = ["songs".toList, "artists".toList] ∧
        body.Order = specOrder songsArtistsRequest.types ∧
        ∀ params ∈ SearchHandler.journal (mockMusicProvider none) songsArtistsRequest (),
          params.Types = specOrder songsArtistsRequest.types :=
  ⟨by decide, _, rfl, by decide,
    SearchHandler.order_is_request_order (mockMusicProvider none) songsArtistsRequest () _
      (by decide) rfl⟩

/-- C4, counterexample: for `types=playlists`, a parameter that is present and
holds only an unrecognised token, the handler's category list is empty, not the
default list, and the service is asked for no category. -/
theorem SearchHandler.unrecognised_types_counterexample :
    playlistsRequest.types ≠ [] ∧
      (∀ tok ∈ Split playlistsRequest.types ',', recognised (TrimSpace tok) = false) ∧
      SearchHandler.parseTypes playlistsRequest.types = [] ∧
      SearchHandler.parseTypes playlistsRequest.types ≠ [ArtistsType, SongsType, AlbumsType] ∧
      SearchHandler.journal (mockMusicProvider none) playlistsRequest () =
        [⟨"test".toList, 5, 0, []⟩] := by
  decide

/-- C4, amended. For every `types` parameter that is present and consists only
of unrecognised tokens, the handler's category list is empty, not the default
list: a request that passes validation reaches the service once, with
`Types = []`; every successful response has an empty order and no category
entry (no `artists`, `songs` or `albums` key); and the response is successful
whenever the service returns without an error. -/
theorem SearchHandler.unrecognised_types_give_no_category {σ : Type}
    (svc : MusicServicePort σ) (r : SearchRequest) (s : σ) (htypes : r.types ≠ [])
    (hunrec : ∀ tok ∈ Split r.types ',', recognised (TrimSpace tok) = false) :
    SearchHandler.parseTypes r.types = [] ∧
      (∀ params ∈ SearchHandler.journal svc r s, params.Types = []) ∧
      (∀ body, (SearchHandler.Search svc r s).1 = some (.json body) →
        body.Order = [] ∧ body.artists = none ∧ body.songs = none ∧ body.albums = none) ∧
      (¬ r.malformed →
        ∃ params, SearchHandler.journal svc r s = [params] ∧ params.Types = [] ∧
          (∀ res, (svc params s).1 = some ⟨res, none⟩ →
            (SearchHandler.Search svc r s).1 = some (.json {}))) := by
  have hnil : SearchHandler.parseTypes r.types = [] := by
    rw [parseTypes_eq_specOrder r.types htypes]
    unfold specOrder
    rw [List.filter_eq_nil_iff]
    intro tok htok
    obtain ⟨raw, hraw, rfl⟩ := List.mem_map.mp htok
    rw [hunrec raw hraw]
    decide
  refine ⟨hnil, ?_, ?_, ?_⟩
  · intro params hp
    rw [journal_types svc r s params hp, hnil]
  · intro body hresp
    obtain ⟨limit, offset, results, _, hasm⟩ := json_response_inv svc r s body hresp
    rw [hnil] at hasm
    simp only [SearchHandler.assemble, Option.some.injEq] at hasm
    rw [← hasm]
    exact ⟨rfl, rfl, rfl, rfl⟩
  · intro hbad
    obtain ⟨hterm, hlimit, hoffset⟩ := valid_of_not_malformed r hbad
    obtain ⟨offset, ho, _⟩ := parseOffset_of_valid r.offset hoffset
    obtain ⟨hj, hr⟩ := handler_of_valid svc r s _ offset hterm
      (parseLimit_of_valid r.limit hlimit) ho
    refine ⟨_, hj, hnil, ?_⟩
    intro res hres
    rw [hr, hres, hnil]
    rfl

/-- C4, worked example of the amended statement: `types=playlists` reaches the
service with no category and is answered with an empty response. -/
theorem SearchHandler.unrecognised_types_give_no_category_witness :
    (playlistsRequest.types ≠ [] ∧
      (∀ tok ∈ Split playlistsRequest.types ',', recognised (TrimSpace tok) = false) ∧
      ¬ playlistsRequest.malformed) ∧
    (SearchHandler.Search (mockMusicProvider none) playlistsRequest ()).1 = some (.json {}) ∧
    (SearchHandler.parseTypes playlistsRequest.types = [] ∧
      (∀ params ∈ SearchHandler.journal (mockMusicProvider none) playlistsRequest (),
        params.Types = []) ∧
      (∀ body, (SearchHandler.Search (mockMusicProvider none) playlistsRequest ()).1 =
          some (.json body) →
        body.Order = [] ∧ body.artists = none ∧ body.songs = none ∧ body.albums = none) ∧
      (¬ playlistsRequest.malformed →
        ∃ params, SearchHandler.journal (mockMusicProvider none) playlistsRequest () =
            [params] ∧ params.Types = [] ∧
          (∀ res, (mockMusicProvider none params ()).1 = some ⟨res, none⟩ →
            (SearchHandler.Search (mockMusicProvider none) playlistsRequest ()).1 =
              some (.json {})))) :=
  ⟨⟨by decide, by decide, (by unfold SearchRequest.malformed; decide)⟩, by decide,
    SearchHandler.unrecognised_types_give_no_category (mockMusicProvider none) playlistsRequest
      () (by decide) (by decide)⟩

/-- C5. When `types` is omitted, a request that passes validation reaches the
service with `Types = [artists, songs, albums]`; every successful response
has the order `["artists", "songs", "albums"]`, and the response is
successful whenever the service returns a result without an error. -/
theorem SearchHandler.default_types {σ : Type} (svc : MusicServicePort σ) (r : SearchRequest)
    (s : σ) (hterm : r.term ≠ []) (hlimit : r.limit = [] ∨ ∃ n, Atoi r.limit = some n)
    (hoffset : r.offset = [] ∨ ∃ n, Atoi r.offset = some n) (htypes : r.types = []) :
    ∃ params, SearchHandler.journal svc r s = [params] ∧
      params.Types = [ArtistsType, SongsType, AlbumsType] ∧
      (∀ body, (SearchHandler.Search svc r s).1 = some (.json body) →
        body.Order = ["artists".toList, "songs".toList, "albums".toList]) ∧
      (∀ res, (svc params s).1 = some ⟨some res, none⟩ →
        ∃ body, (SearchHandler.Search svc r s).1 = some (.json body)) := by
  obtain ⟨offset, ho, _⟩ := parseOffset_of_valid r.offset hoffset
  obtain ⟨hj, hr⟩ := handler_of_valid svc r s _ offset hterm
    (parseLimit_of_valid r.limit hlimit) ho
  have hdef : SearchHandler.parseTypes r.types = [ArtistsType, SongsType, AlbumsType] := by
    rw [htypes]; rfl
  refine ⟨_, hj, hdef, ?_, ?_⟩
  · intro body hresp
    rw [json_response_order svc r s body hresp, hdef]
    rfl
  · intro res hres
    rw [hr, hres]
    obtain ⟨body, hbody⟩ := assemble_isSome r.term (specLimit (Atoi r.limit)) offset res
      (SearchHandler.parseTypes r.types) {}
    exact ⟨body, by simp only [hbody, Option.map_some']⟩

/-- C5, worked example: `term=test&limit=1&offset=0` without `types`. -/
theorem SearchHandler.default_types_witness :
    (sampleRequest.term ≠ [] ∧ (sampleRequest.limit = [] ∨ ∃ n, Atoi sampleRequest.limit = some n) ∧
      (sampleRequest.offset = [] ∨ ∃ n, Atoi sampleRequest.offset = some n) ∧
      sampleRequest.types = []) ∧
    ∃ params, SearchHandler.journal (mockMusicProvider none) sampleRequest () = [params] ∧
      params.Types = [ArtistsType, SongsType, AlbumsType] ∧
      (∀ body, (SearchHandler.Search (mockMusicProvider none) sampleRequest ()).1 =
        some (.json body) → body.Order = ["artists".toList, "songs".toList, "albums".toList]) ∧
      (∀ res, (mockMusicProvider none params ()).1 = some ⟨some res, none⟩ →
        ∃ body, (SearchHandler.Search (mockMusicProvider none) sampleRequest ()).1 =
          some (.json body)) :=
  ⟨⟨by decide, Or.inr ⟨1, by decide⟩, Or.inr ⟨0, by decide⟩, rfl⟩,
    SearchHandler.default_types (mockMusicProvider none) sampleRequest () (by decide)
      (Or.inr ⟨1, by decide⟩) (Or.inr ⟨0, by decide⟩) rfl⟩

/-- C6. For every request with a non-empty term and with `limit` and `offset`
each either absent or parseable as an integer, the handler invokes the service
with `1 ≤ Limit ≤ 25` and `Offset ≥ 0`. -/
theorem SearchHandler.params_in_range {σ : Type} (svc : MusicServicePort σ) (r : SearchRequest)
    (s : σ) (hterm : r.term ≠ []) (hlimit : r.limit = [] ∨ ∃ n, Atoi r.limit = some n)
    (hoffset : r.offset = [] ∨ ∃ n, Atoi r.offset = some n) :
    ∃ params, SearchHandler.journal svc r s = [params] ∧
      1 ≤ params.Limit ∧ params.Limit ≤ 25 ∧ 0 ≤ params.Offset := by
  obtain ⟨offset, ho, hnonneg⟩ := parseOffset_of_valid r.offset hoffset
  obtain ⟨hj, _⟩ := handler_of_valid svc r s _ offset hterm
    (parseLimit_of_valid r.limit hlimit) ho
  exact ⟨_, hj, (specLimit_bounds _).1, (specLimit_bounds _).2, hnonneg⟩

/-- C6, worked example: `term=test&limit=999&offset=-4`. -/
theorem SearchHandler.params_in_range_witness :
    (outOfRangeRequest.term ≠ [] ∧
      (outOfRangeRequest.limit = [] ∨ ∃ n, Atoi outOfRangeRequest.limit = some n) ∧
      (outOfRangeRequest.offset = [] ∨ ∃ n, Atoi outOfRangeRequest.offset = some n)) ∧
    ∃ params, SearchHandler.journal (mockMusicProvider none) outOfRangeRequest () = [params] ∧
      1 ≤ params.Limit ∧ params.Limit ≤ 25 ∧ 0 ≤ params.Offset :=
  ⟨⟨by decide, Or.inr ⟨999, by decide⟩, Or.inr ⟨-4, by decide⟩⟩,
    SearchHandler.params_in_range (mockMusicProvider none) outOfRangeRequest () (by decide)
      (Or.inr ⟨999, by decide⟩) (Or.inr ⟨-4, by decide⟩)⟩

/-- C7. The limit the handler passes to the service is this function of the
raw `limit` parameter: absent gives 5; an integer below 1 gives 5; an integer
above 25 gives 25; an integer from 1 to 25 is passed unchanged. -/
theorem SearchHandler.limit_normalised {σ : Type} (svc : MusicServicePort σ)
    (r : SearchRequest) (s : σ) (hterm : r.term ≠ [])
    (hlimit : r.limit = [] ∨ ∃ n, Atoi r.limit = some n)
    (hoffset : r.offset = [] ∨ ∃ n, Atoi r.offset = some n) :
    ∃ params, SearchHandler.journal svc r s = [params] ∧
      (r.limit = [] → params.Limit = 5) ∧
      (∀ n, Atoi r.limit = some n →
        (n < 1 → params.Limit = 5) ∧ (25 < n → params.Limit = 25) ∧
        (1 ≤ n → n ≤ 25 → params.Limit = n)) := by
  obtain ⟨offset, ho, _⟩ := parseOffset_of_valid r.offset hoffset
  obtain ⟨hj, _⟩ := handler_of_valid svc r s _ offset hterm
    (parseLimit_of_valid r.limit hlimit) ho
  refine ⟨_, hj, ?_, ?_⟩
  · intro hempty
    rw [hempty]
    rfl
  · intro n hn
    simp only [hn, specLimit]
    refine ⟨?_, ?_, ?_⟩
    · intro h; rw [if_pos h]
    · intro h; rw [if_neg (by omega), if_pos (by omega)]
    · intro h1 h2; rw [if_neg (by omega), if_neg (by omega)]

/-- C7, worked example: `term=test&limit=0` is served with the limit 5. -/
theorem SearchHandler.limit_normalised_witness :
    (zeroLimitRequest.term ≠ [] ∧
      (zeroLimitRequest.limit = [] ∨ ∃ n, Atoi zeroLimitRequest.limit = some n) ∧
      (zeroLimitRequest.offset = [] ∨ ∃ n, Atoi zeroLimitRequest.offset = some n)) ∧
    ∃ params, SearchHandler.journal (mockMusicProvider none) zeroLimitRequest () = [params] ∧
      (zeroLimitRequest.limit = [] → params.Limit = 5) ∧
      (∀ n, Atoi zeroLimitRequest.limit = some n →
        (n < 1 → params.Limit = 5) ∧ (25 < n → params.Limit = 25) ∧
        (1 ≤ n → n ≤ 25 → params.Limit = n)) :=
  ⟨⟨by decide, Or.inr ⟨0, by decide⟩, Or.inl rfl⟩,
    SearchHandler.limit_normalised (mockMusicProvider none) zeroLimitRequest () (by decide)
      (Or.inr ⟨0, by decide⟩) (Or.inl rfl)⟩

/-- C8. The status code of every request: the handler responds 400 without
invoking the service if and only if `term` is empty, or `limit` is present but
not parseable, or `offset` is present but not parseable; otherwise it invokes
the service exactly once, responds 500 if the service returns an error and
200 if the service returns a result without an error. -/
theorem SearchHandler.status_codes {σ : Type} (svc : MusicServicePort σ) (r : SearchRequest)
    (s : σ) :
    (((SearchHandler.Search svc r s).1.map HTTPResponse.status = some 400 ∧
        SearchHandler.journal svc r s = []) ↔ r.malformed) ∧
      (¬ r.malformed →
        ∃ params, SearchHandler.journal svc r s = [params] ∧
          (∀ res e, (svc params s).1 = some ⟨res, some e⟩ →
            (SearchHandler.Search svc r s).1.map HTTPResponse.status = some 500) ∧
          (∀ res, (svc params s).1 = some ⟨some res, none⟩ →
            (SearchHandler.Search svc r s).1.map HTTPResponse.status = some 200)) := by
  have hgood : ¬ r.malformed →
      ∃ params, SearchHandler.journal svc r s = [params] ∧
        (∀ res e, (svc params s).1 = some ⟨res, some e⟩ →
          (SearchHandler.Search svc r s).1.map HTTPResponse.status = some 500) ∧
        (∀ res, (svc params s).1 = some ⟨some res, none⟩ →
          (SearchHandler.Search svc r s).1.map HTTPResponse.status = some 200) := by
    intro hbad
    obtain ⟨hterm, hlimit, hoffset⟩ := valid_of_not_malformed r hbad
    obtain ⟨offset, ho, _⟩ := parseOffset_of_valid r.offset hoffset
    obtain ⟨hj, hr⟩ := handler_of_valid svc r s _ offset hterm
      (parseLimit_of_valid r.limit hlimit) ho
    refine ⟨_, hj, ?_, ?_⟩
    · intro res e hres
      rw [hr, hres]
      rfl
    · intro res hres
      rw [hr, hres]
      obtain ⟨body, hbody⟩ := assemble_isSome r.term (specLimit (Atoi r.limit)) offset res
        (SearchHandler.parseTypes r.types) {}
      simp only [hbody, Option.map_some', HTTPResponse.status]
  refine ⟨⟨?_, handler_of_malformed svc r s⟩, hgood⟩
  rintro ⟨_, hnil⟩
  by_contra hbad
  obtain ⟨params, hj, _⟩ := hgood hbad
  rw [hj] at hnil
  cases hnil

/-- C8, worked examples: the three cases of the handler test. A missing term
is answered with 400 and no service call; with a term, a service error is
answered with 500 and a service success with 200. -/
theorem SearchHandler.status_codes_witness :
    ((SearchHandler.Search (mockMusicProvider none) missingTermRequest ()).1.map
        HTTPResponse.status = some 400 ∧
      SearchHandler.journal (mockMusicProvider none) missingTermRequest () = []) ∧
    (SearchHandler.Search (mockMusicProvider (some AnError))
      termOnlyRequest ()).1.map HTTPResponse.status = some 500 ∧
    (SearchHandler.Search (mockMusicProvider none) termOnlyRequest ()).1.map
      HTTPResponse.status = some 200 :=
  ⟨((SearchHandler.status_codes (mockMusicProvider none) missingTermRequest ()).1).mpr
      (Or.inl rfl),
    by decide, by decide⟩

/-! ## The identifier synthesiser -/

/-- Replacing a one-character string by a one-character string maps every
character on its own. -/
theorem scan_singleton (a b : Char) (s : GoString) :
    ReplaceAll.scan [a] [b] 0 s = s.map (fun c => if c = a then b else c) := by
  induction s with
  | nil => rfl
  | cons c cs ih =>
    simp only [ReplaceAll.scan, List.isPrefixOf, List.map_cons, List.length_singleton,
      Nat.sub_self, Bool.and_true, beq_iff_eq]
    by_cases h : a = c
    · rw [if_pos h, if_pos h.symm, ih]
      rfl
    · rw [if_neg h, if_neg (fun h2 => h h2.symm), ih]

theorem ReplaceAll_singleton (a b : Char) (s : GoString) :
    ReplaceAll s [a] [b] = s.map (fun c => if c = a then b else c) := by
  unfold ReplaceAll
  by_cases h : [a] = [b]
  · rw [if_pos h]
    have hab : a = b := by simpa using h
    subst hab
    have hid : (fun c : Char => if c = a then a else c) = id := by
      funext c
      by_cases hc : c = a
      · rw [if_pos hc, hc]; rfl
      · rw [if_neg hc]; rfl
    rw [hid, List.map_id]
  · rw [if_neg h, scan_singleton]

/-- The three replacements in a row are the replacement of the specification. -/
theorem replace_three (x : GoString) :
    ReplaceAll (ReplaceAll (ReplaceAll x " ".toList "-".toList) "/".toList "-".toList)
      backslash "-".toList = x.map specHyphenate := by
  show ReplaceAll (ReplaceAll (ReplaceAll x [' '] ['-']) ['/'] ['-']) [Char.ofNat 92] ['-'] = _
  rw [ReplaceAll_singleton, ReplaceAll_singleton, ReplaceAll_singleton, List.map_map,
    List.map_map]
  apply List.map_congr_left
  intro c _
  simp only [Function.comp, specHyphenate]
  by_cases h1 : c = ' '
  · subst h1; decide
  · by_cases h2 : c = '/'
    · subst h2; decide
    · by_cases h3 : c = Char.ofNat 92
      · subst h3; decide
      · simp [h1, h2, h3]

theorem songID_eq_spec (lower : Char → Char) (artist name : GoString) :
    LastFMAdapter.songID lower artist name = specSynthesize lower artist name := by
  unfold LastFMAdapter.songID specSynthesize ToLower
  exact replace_three _

theorem artistID_eq_spec (lower : Char → Char) (name : GoString) :
    LastFMAdapter.artistID lower name = specSynthesizeName lower name := by
  unfold LastFMAdapter.artistID specSynthesizeName ToLower
  exact replace_three _

/-- Every song in the buckets was there at the start or is the song of one of
the tracks. -/
theorem classify_mem (lower : Char → Char) (queryTerms : List GoString)
    (tracks : List TrackMatch) :
    ∀ (buckets : List Song × List Song) (song : Song),
      song ∈ (LastFMAdapter.classify lower queryTerms tracks buckets).1 ++
          (LastFMAdapter.classify lower queryTerms tracks buckets).2 →
      song ∈ buckets.1 ++ buckets.2 ∨ ∃ track ∈ tracks, song = LastFMAdapter.toSong lower track := by
  induction tracks with
  | nil => intro buckets song h; exact Or.inl h
  | cons track rest ih =>
    rintro ⟨exact, other⟩ song h
    simp only [LastFMAdapter.classify] at h
    split_ifs at h
    · rcases ih _ _ h with h | ⟨t, ht, hs⟩
      · simp only [List.mem_append, List.mem_singleton] at h
        rcases h with (h | h) | h
        · exact Or.inl (List.mem_append_left _ h)
        · exact Or.inr ⟨track, List.mem_cons_self _ _, h⟩
        · exact Or.inl (List.mem_append_right _ h)
      · exact Or.inr ⟨t, List.mem_cons_of_mem _ ht, hs⟩
    · rcases ih _ _ h with h | ⟨t, ht, hs⟩
      · simp only [List.mem_append, List.mem_singleton] at h
        rcases h with h | h | h
        · exact Or.inl (List.mem_append_left _ h)
        · exact Or.inl (List.mem_append_right _ h)
        · exact Or.inr ⟨track, List.mem_cons_self _ _, h⟩
      · exact Or.inr ⟨t, List.mem_cons_of_mem _ ht, hs⟩

/-- The truncation keeps elements of the list only. -/
theorem clampTo_mem {α : Type} (xs ys : List α) (limit : Int) (h : clampTo xs limit = some ys) :
    ∀ y ∈ ys, y ∈ xs := by
  unfold clampTo sliceTo at h
  split_ifs at h
  · simp only [Option.some.injEq] at h
    subst h
    intro y hy
    exact List.mem_of_mem_take hy
  · simp only [Option.some.injEq] at h
    subst h
    intro y hy
    exact hy

theorem albumsLoop_mem (lower : Char → Char) (found : List AlbumMatch) :
    ∀ (albums : List Album) (album : Album),
      album ∈ LastFMAdapter.albumsLoop lower found albums →
      album ∈ albums ∨ ∃ m ∈ found, album = LastFMAdapter.toAlbum lower m := by
  induction found with
  | nil => intro albums album h; exact Or.inl h
  | cons m rest ih =>
    intro albums album h
    simp only [LastFMAdapter.albumsLoop] at h
    split_ifs at h
    · simp only [List.mem_append, List.mem_singleton] at h
      rcases h with h | h
      · exact Or.inl h
      · exact Or.inr ⟨m, List.mem_cons_self _ _, h⟩
    · rcases ih _ _ h with h | ⟨m2, hm2, hs⟩
      · simp only [List.mem_append, List.mem_singleton] at h
        rcases h with h | h
        · exact Or.inl h
        · exact Or.inr ⟨m, List.mem_cons_self _ _, h⟩
      · exact Or.inr ⟨m2, List.mem_cons_of_mem _ hm2, hs⟩

theorem artistsLoop_mem (lower : Char → Char) (found : List ArtistMatch) :
    ∀ (artists : List Artist) (artist : Artist),
      artist ∈ LastFMAdapter.artistsLoop lower found artists →
      artist ∈ artists ∨ ∃ m ∈ found, artist = LastFMAdapter.toArtist lower m := by
  induction found with
  | nil => intro artists artist h; exact Or.inl h
  | cons m rest ih =>
    intro artists artist h
    simp only [LastFMAdapter.artistsLoop] at h
    split_ifs at h
    · simp only [List.mem_append, List.mem_singleton] at h
      rcases h with h | h
      · exact Or.inl h
      · exact Or.inr ⟨m, List.mem_cons_self _ _, h⟩
    · rcases ih _ _ h with h | ⟨m2, hm2, hs⟩
      · simp only [List.mem_append, List.mem_singleton] at h
        rcases h with h | h
        · exact Or.inl h
        · exact Or.inr ⟨m, List.mem_cons_self _ _, h⟩
      · exact Or.inr ⟨m2, List.mem_cons_of_mem _ hm2, hs⟩

/-- C9. Identifier synthesis equals the reference transform and is
deterministic: the identifier of every song and album the adapter builds is
`lower(artist) ++ "-" ++ lower(name)` with every space, forward slash and
backslash replaced by a hyphen, where `(artist, name)` are the upstream values
kept in the entity's attributes; the identifier of every artist is
`lower(name)` with the same replacements; tracks with the same
`(artist, name)` get the same identifier. -/
theorem LastFMAdapter.ids_follow_reference_transform {σ : Type} (lower : Char → Char)
    (api : LastFM σ) (query : GoString) (limit offset : Int) (s : σ) :
    (∀ track : TrackMatch,
      (LastFMAdapter.toSong lower track).ID = specSynthesize lower track.Artist track.Name) ∧
    (∀ album : AlbumMatch,
      (LastFMAdapter.toAlbum lower album).ID = specSynthesize lower album.Artist album.Name) ∧
    (∀ artist : ArtistMatch,
      (LastFMAdapter.toArtist lower artist).ID = specSynthesizeName lower artist.Name) ∧
    (∀ t1 t2 : TrackMatch, t1.Artist = t2.Artist → t1.Name = t2.Name →
      (LastFMAdapter.toSong lower t1).ID = (LastFMAdapter.toSong lower t2).ID) ∧
    (∀ songs, (LastFMAdapter.SearchSongs lower api query limit offset s).1 = some (.ok songs) →
      ∀ song ∈ songs,
        song.ID = specSynthesize lower song.Attributes.ArtistName song.Attributes.Name) ∧
    (∀ albums, (LastFMAdapter.SearchAlbums lower api query limit offset s).1 = some (.ok albums) →
      ∀ album ∈ albums,
        album.ID = specSynthesize lower album.Attributes.ArtistName album.Attributes.Name) ∧
    (∀ artists,
      (LastFMAdapter.SearchArtists lower api query limit offset s).1 = some (.ok artists) →
      ∀ artist ∈ artists, artist.ID = specSynthesizeName lower artist.Attributes.Name) := by
  refine ⟨fun track => songID_eq_spec lower _ _, fun album => songID_eq_spec lower _ _,
    fun artist => artistID_eq_spec lower _, ?_, ?_, ?_, ?_⟩
  · intro t1 t2 ha hn
    simp only [LastFMAdapter.toSong, ha, hn]
  · intro songs h song hsong
    unfold LastFMAdapter.SearchSongs at h
    by_cases hz : limit = 0
    · rw [if_pos hz] at h
      cases h
    · rw [if_neg hz] at h
      split at h
      · cases h
      · cases h
      · cases h
      · rename_i tracks s1 _
        simp only at h
        split at h
        · cases h
        · rename_i songs1 hclamp
          simp only [Option.some.injEq, Except.ok.injEq] at h
          subst h
          rcases classify_mem lower _ tracks _ song (clampTo_mem _ _ _ hclamp song hsong) with
            hmem | ⟨track, _, rfl⟩
          · simp at hmem
          · exact songID_eq_spec lower _ _
  · intro albums h album halbum
    unfold LastFMAdapter.SearchAlbums at h
    by_cases hz : limit = 0
    · rw [if_pos hz] at h
      cases h
    · rw [if_neg hz] at h
      split at h
      · cases h
      · cases h
      · cases h
      · rename_i found s1 _
        simp only [Option.some.injEq, Except.ok.injEq] at h
        subst h
        rcases albumsLoop_mem lower found [] album halbum with hmem | ⟨m, _, rfl⟩
        · cases hmem
        · exact songID_eq_spec lower _ _
  · intro artists h artist hartist
    unfold LastFMAdapter.SearchArtists at h
    by_cases hz : limit = 0
    · rw [if_pos hz] at h
      cases h
    · rw [if_neg hz] at h
      split at h
      · cases h
      · cases h
      · cases h
      · rename_i found s1 _
        simp only [Option.some.injEq, Except.ok.injEq] at h
        subst h
        rcases artistsLoop_mem lower found [] artist hartist with hmem | ⟨m, _, rfl⟩
        · cases hmem
        · exact artistID_eq_spec lower _

/-- C9, worked example: the upstream track `("Test Artist", "Test Track")` gets
the identifier `test-artist-test-track` (with the ASCII case table, which
agrees with `unicode.ToLower` on ASCII text). -/
theorem LastFMAdapter.ids_follow_reference_transform_witness :
    specSynthesize Char.toLower "Test Artist".toList "Test Track".toList =
        "test-artist-test-track".toList ∧
      (LastFMAdapter.toSong Char.toLower sampleTrack).ID =
        specSynthesize Char.toLower sampleTrack.Artist sampleTrack.Name ∧
      (LastFMAdapter.SearchSongs Char.toLower sampleLastFM "test".toList 1 0 ()).1 =
        some (.ok [LastFMAdapter.toSong Char.toLower sampleTrack]) :=
  ⟨by decide,
    (LastFMAdapter.ids_follow_reference_transform Char.toLower sampleLastFM "test".toList 1 0
      ()).1 sampleTrack,
    rfl⟩

/-- C10, failing input: Last.fm answers an album search with the albums
`("a-b", "c")` and `("a", "b-c")`, given as (artist, name). Both pairs are
already lower-case and hold no space, slash or backslash, so normalisation
changes nothing, and they differ; yet `SearchAlbums` gives both albums the
identifier `a-b-c`. -/
theorem LastFMAdapter.album_ids_collide :
    (alreadyNormalised Char.toLower "a-b".toList ∧ alreadyNormalised Char.toLower "c".toList ∧
      alreadyNormalised Char.toLower "a".toList ∧
      alreadyNormalised Char.toLower "b-c".toList) ∧
    ("a-b".toList, "c".toList) ≠ ("a".toList, "b-c".toList) ∧
    LastFMAdapter.songID Char.toLower "a-b".toList "c".toList = "a-b-c".toList ∧
    LastFMAdapter.songID Char.toLower "a".toList "b-c".toList = "a-b-c".toList ∧
    ∃ album1 album2,
      (LastFMAdapter.SearchAlbums Char.toLower collidingAlbumsLastFM "x".toList 5 0 ()).1 =
          some (.ok [album1, album2]) ∧
        (album1.Attributes.ArtistName, album1.Attributes.Name) =
          ("a-b".toList, "c".toList) ∧
        (album2.Attributes.ArtistName, album2.Attributes.Name) =
          ("a".toList, "b-c".toList) ∧
        album1.ID = "a-b-c".toList ∧ album2.ID = "a-b-c".toList :=
  ⟨by decide, by decide, by decide, by decide, _, _, rfl, by decide, by decide, by decide,
    by decide⟩

/-! ## The relevance classifier -/

/-- The model of `strings.Contains` decides the substring relation. -/
theorem Contains_iff_substring (s substr : GoString) :
    Contains s substr = true ↔ List.IsInfix substr s := by
  unfold Contains
  rw [List.any_eq_true, List.infix_iff_prefix_suffix]
  constructor
  · rintro ⟨t, ht, hp⟩
    exact ⟨t, List.isPrefixOf_iff_prefix.mp hp, (List.mem_tails _ _).mp ht⟩
  · rintro ⟨t, hp, ht⟩
    exact ⟨t, (List.mem_tails _ _).mpr ht, List.isPrefixOf_iff_prefix.mpr hp⟩

/-- Containing a one-character string is holding the character. -/
theorem Contains_singleton (s : GoString) (c : Char) : Contains s [c] = true ↔ c ∈ s := by
  rw [Contains_iff_substring]
  constructor
  · rintro ⟨a, b, h⟩
    rw [← h]
    simp
  · intro h
    obtain ⟨a, b, hab⟩ := List.append_of_mem h
    exact ⟨a, b, by rw [hab]; simp⟩

theorem isMainArtist_iff (queryTerms : List GoString) (artistName : GoString) :
    LastFMAdapter.isMainArtist queryTerms artistName = true ↔
      (∃ term ∈ queryTerms, List.IsInfix term artistName) ∧ '(' ∉ artistName ∧
        ')' ∉ artistName := by
  unfold LastFMAdapter.isMainArtist
  rw [List.any_eq_true]
  have hopen : Contains artistName "(".toList = true ↔ '(' ∈ artistName :=
    Contains_singleton artistName '('
  have hclose : Contains artistName ")".toList = true ↔ ')' ∈ artistName :=
    Contains_singleton artistName ')'
  constructor
  · rintro ⟨term, hterm, h⟩
    simp only [Bool.and_eq_true, Bool.not_eq_true'] at h
    obtain ⟨⟨h1, h2⟩, h3⟩ := h
    refine ⟨⟨term, hterm, (Contains_iff_substring _ _).mp h1⟩, ?_, ?_⟩
    · intro hm; rw [hopen.mpr hm] at h2; cases h2
    · intro hm; rw [hclose.mpr hm] at h3; cases h3
  · rintro ⟨⟨term, hterm, h1⟩, h2, h3⟩
    refine ⟨term, hterm, ?_⟩
    simp only [Bool.and_eq_true, Bool.not_eq_true']
    refine ⟨⟨(Contains_iff_substring _ _).mpr h1, ?_⟩, ?_⟩
    · cases hc : Contains artistName "(".toList with
      | false => rfl
      | true => exact absurd (hopen.mp hc) h2
    · cases hc : Contains artistName ")".toList with
      | false => rfl
      | true => exact absurd (hclose.mp hc) h3

theorem exactTitleMatch_iff (queryTerms : List GoString) (trackName : GoString) :
    LastFMAdapter.exactTitleMatch queryTerms trackName = true ↔
      ∃ term ∈ queryTerms, List.IsInfix term trackName := by
  unfold LastFMAdapter.exactTitleMatch
  rw [List.any_eq_true]
  constructor
  · rintro ⟨term, hterm, h⟩
    exact ⟨term, hterm, (Contains_iff_substring _ _).mp h⟩
  · rintro ⟨term, hterm, h⟩
    exact ⟨term, hterm, (Contains_iff_substring _ _).mpr h⟩

/-- The test of the loop in `SearchSongs` decides the primary match of the
specification. -/
theorem primary_test_iff (lower : Char → Char) (query : GoString) (track : TrackMatch) :
    (LastFMAdapter.isMainArtist (Fields (ToLower lower query)) (ToLower lower track.Artist) &&
      LastFMAdapter.exactTitleMatch (Fields (ToLower lower query)) (ToLower lower track.Name)) =
      decide (specIsPrimary lower query track) := by
  rw [Bool.eq_iff_iff, Bool.and_eq_true, decide_eq_true_iff, isMainArtist_iff,
    exactTitleMatch_iff]
  unfold specIsPrimary
  tauto

/-- The loop of `SearchSongs` appends the songs of the primary matches to the
first bucket and the songs of the others to the second, in the order of the
tracks. -/
theorem classify_eq (lower : Char → Char) (query : GoString) (tracks : List TrackMatch) :
    ∀ exactMatches otherMatches : List Song,
      LastFMAdapter.classify lower (Fields (ToLower lower query)) tracks
          (exactMatches, otherMatches) =
        (exactMatches ++ (tracks.filter (fun t => decide (specIsPrimary lower query t))).map
            (LastFMAdapter.toSong lower),
          otherMatches ++ (tracks.filter (fun t => !decide (specIsPrimary lower query t))).map
            (LastFMAdapter.toSong lower)) := by
  induction tracks with
  | nil => intro e o; simp [LastFMAdapter.classify]
  | cons track rest ih =>
    intro e o
    simp only [LastFMAdapter.classify, primary_test_iff]
    by_cases hp : specIsPrimary lower query track
    · simp [hp, ih]
    · simp [hp, ih]

/-- The song built for a track determines the track. -/
theorem toSong_injective (lower : Char → Char) (t1 t2 : TrackMatch)
    (h : LastFMAdapter.toSong lower t1 = LastFMAdapter.toSong lower t2) : t1 = t2 := by
  have hn : (LastFMAdapter.toSong lower t1).Attributes.Name =
      (LastFMAdapter.toSong lower t2).Attributes.Name := by rw [h]
  have ha : (LastFMAdapter.toSong lower t1).Attributes.ArtistName =
      (LastFMAdapter.toSong lower t2).Attributes.ArtistName := by rw [h]
  cases t1; cases t2
  simp only [LastFMAdapter.toSong] at hn ha
  simp [hn, ha]

/-- C11. In the relevance classification of `SearchSongs`, with the query
lower-cased and split into white-space delimited terms, a candidate is placed
in the primary bucket (`exactMatches`) if and only if some query term is a
substring of the lower-cased artist name, the artist name holds neither `(`
nor `)`, and some query term is a substring of the lower-cased track name;
every other candidate goes to the secondary bucket. A candidate whose artist
holds a parenthesis is never primary, and without query terms every candidate
is secondary. -/
theorem LastFMAdapter.classify_primary_iff (lower : Char → Char) (query : GoString)
    (tracks : List TrackMatch) :
    LastFMAdapter.classify lower (Fields (ToLower lower query)) tracks ([], []) =
        ((tracks.filter (fun t => decide (specIsPrimary lower query t))).map
            (LastFMAdapter.toSong lower),
          (tracks.filter (fun t => !decide (specIsPrimary lower query t))).map
            (LastFMAdapter.toSong lower)) ∧
      (∀ track ∈ tracks,
        (LastFMAdapter.toSong lower track ∈
            (LastFMAdapter.classify lower (Fields (ToLower lower query)) tracks ([], [])).1 ↔
          specIsPrimary lower query track) ∧
        (LastFMAdapter.toSong lower track ∈
            (LastFMAdapter.classify lower (Fields (ToLower lower query)) tracks ([], [])).2 ↔
          ¬ specIsPrimary lower query track)) ∧
      (∀ track : TrackMatch,
        '(' ∈ ToLower lower track.Artist ∨ ')' ∈ ToLower lower track.Artist →
          ¬ specIsPrimary lower query track) ∧
      (lower '(' = '(' → lower ')' = ')' →
        ∀ track : TrackMatch, '(' ∈ track.Artist ∨ ')' ∈ track.Artist →
          ¬ specIsPrimary lower query track) ∧
      (Fields (ToLower lower query) = [] →
        LastFMAdapter.classify lower (Fields (ToLower lower query)) tracks ([], []) =
          ([], tracks.map (LastFMAdapter.toSong lower))) := by
  have hparen : ∀ track : TrackMatch,
      '(' ∈ ToLower lower track.Artist ∨ ')' ∈ ToLower lower track.Artist →
        ¬ specIsPrimary lower query track := by
    rintro track (h | h) ⟨_, h1, h2, _⟩
    · exact h1 h
    · exact h2 h
  have heq := classify_eq lower query tracks [] []
  simp only [List.nil_append] at heq
  refine ⟨heq, ?_, hparen, ?_, ?_⟩
  · intro track htrack
    rw [heq]
    constructor
    · constructor
      · intro hmem
        obtain ⟨t, ht, hs⟩ := List.mem_map.mp hmem
        rw [← toSong_injective lower t track hs]
        exact of_decide_eq_true (List.mem_filter.mp ht).2
      · intro hp
        exact List.mem_map.mpr ⟨track, List.mem_filter.mpr ⟨htrack, decide_eq_true hp⟩, rfl⟩
    · constructor
      · intro hmem
        obtain ⟨t, ht, hs⟩ := List.mem_map.mp hmem
        rw [← toSong_injective lower t track hs]
        have h2 := (List.mem_filter.mp ht).2
        simpa using h2
      · intro hp
        exact List.mem_map.mpr ⟨track, List.mem_filter.mpr ⟨htrack, by simpa using hp⟩, rfl⟩
  · intro hopen hclose track h
    apply hparen
    unfold ToLower
    rcases h with h | h
    · exact Or.inl (List.mem_map.mpr ⟨'(', h, hopen⟩)
    · exact Or.inr (List.mem_map.mpr ⟨')', h, hclose⟩)
  · intro hnone
    rw [heq]
    have hnot : ∀ t : TrackMatch, ¬ specIsPrimary lower query t := by
      rintro t ⟨⟨term, hterm, _⟩, _⟩
      rw [hnone] at hterm
      cases hterm
    simp [hnot]

/-- C11, worked example: for the query `bad guy` the candidate with the artist
`Billie Eilish (feat. X)` is not a primary match, and both candidates of the
example land in the secondary bucket, in provider order (no query term occurs
in `billie eilish`); for the query `Eilish bad` the first candidate is primary
and the second, whose artist holds parentheses, is secondary. -/
theorem LastFMAdapter.classify_primary_iff_witness :
    (Char.toLower '(' = '(' ∧ Char.toLower ')' = ')') ∧
      ¬ specIsPrimary Char.toLower "bad guy".toList
        { Name := "bad guy (remix)".toList, Artist := "Billie Eilish (feat. X)".toList } ∧
      LastFMAdapter.classify Char.toLower (Fields (ToLower Char.toLower "bad guy".toList))
          badGuyTracks ([], []) =
        ([], badGuyTracks.map (LastFMAdapter.toSong Char.toLower)) ∧
      LastFMAdapter.classify Char.toLower (Fields (ToLower Char.toLower "Eilish bad".toList))
          badGuyTracks ([], []) =
        ((badGuyTracks.take 1).map (LastFMAdapter.toSong Char.toLower),
          (badGuyTracks.drop 1).map (LastFMAdapter.toSong Char.toLower)) :=
  ⟨by decide,
    (LastFMAdapter.classify_primary_iff Char.toLower "bad guy".toList badGuyTracks).2.2.2.1
      (by decide) (by decide) _ (by decide),
    by decide, by decide⟩

/-! ## The adapter's exchange with Last.fm -/

theorem logged_trackSearch {σ : Type} (api : LastFM σ) (req : LastFMRequest) (s : σ)
    (log : List UpstreamCall) :
    api.logged.trackSearch req (s, log) =
      ((api.trackSearch req s).1, ((api.trackSearch req s).2,
        log ++ [⟨req, toUpstreamAnswer .tracks (api.trackSearch req s).1⟩])) := rfl

theorem logged_albumSearch {σ : Type} (api : LastFM σ) (req : LastFMRequest) (s : σ)
    (log : List UpstreamCall) :
    api.logged.albumSearch req (s, log) =
      ((api.albumSearch req s).1, ((api.albumSearch req s).2,
        log ++ [⟨req, toUpstreamAnswer .albums (api.albumSearch req s).1⟩])) := rfl

theorem logged_artistSearch {σ : Type} (api : LastFM σ) (req : LastFMRequest) (s : σ)
    (log : List UpstreamCall) :
    api.logged.artistSearch req (s, log) =
      ((api.artistSearch req s).1, ((api.artistSearch req s).2,
        log ++ [⟨req, toUpstreamAnswer .artists (api.artistSearch req s).1⟩])) := rfl

/-- The stable partition is a rearrangement of the songs of the candidates. -/
theorem specPartition_perm (lower : Char → Char) (query : GoString) (tracks : List TrackMatch) :
    List.Perm (specPartition lower query tracks) (tracks.map (LastFMAdapter.toSong lower)) := by
  unfold specPartition
  rw [← List.map_append]
  exact (List.filter_append_perm _ tracks).map _

/-- What `SearchSongs` returns when Last.fm is asked and answers with a
decoded list, for a limit that is not negative. -/
theorem SearchSongs_of_decoded {σ : Type} (lower : Char → Char) (api : LastFM σ)
    (query : GoString) (limit offset : Int) (s : σ) (tracks : List TrackMatch)
    (hlimit : 0 ≤ limit) (hz : limit ≠ 0)
    (hreply : (api.trackSearch
      { method := "track.search".toList, text := query, limit := wrapInt64 (limit * 2),
        page := LastFMAdapter.page limit offset } s).1 = .decoded tracks) :
    (LastFMAdapter.SearchSongs lower api query limit offset s).1 =
      some (.ok ((specPartition lower query tracks).take limit.toNat)) := by
  unfold LastFMAdapter.SearchSongs
  rw [if_neg hz]
  rcases hcall : api.trackSearch
      { method := "track.search".toList, text := query, limit := wrapInt64 (limit * 2),
        page := LastFMAdapter.page limit offset } s with ⟨reply, s1⟩
  rw [hcall] at hreply
  simp only at hreply
  subst hreply
  simp only [classify_eq, List.nil_append, clampTo_of_nonneg _ _ hlimit]
  rfl

/-- The journal of `SearchSongs`: empty for a zero limit, otherwise the one
request with its answer. -/
theorem songsJournal_eq {σ : Type} (lower : Char → Char) (api : LastFM σ)
    (query : GoString) (limit offset : Int) (s : σ) :
    LastFMAdapter.songsJournal lower api query limit offset s =
      if limit = 0 then []
      else
        [⟨{ method := "track.search".toList, text := query, limit := wrapInt64 (limit * 2),
            page := LastFMAdapter.page limit offset },
          toUpstreamAnswer .tracks (api.trackSearch
            { method := "track.search".toList, text := query, limit := wrapInt64 (limit * 2),
              page := LastFMAdapter.page limit offset } s).1⟩] := by
  unfold LastFMAdapter.songsJournal LastFMAdapter.SearchSongs
  by_cases hz : limit = 0
  · rw [if_pos hz, if_pos hz]
  · rw [if_neg hz, if_neg hz, logged_trackSearch]
    generalize api.trackSearch
      { method := "track.search".toList, text := query, limit := wrapInt64 (limit * 2),
        page := LastFMAdapter.page limit offset } s = r
    rcases r with ⟨reply, s1⟩
    cases reply with
    | getFailed err => rfl
    | readFailed err => rfl
    | decodeFailed err => rfl
    | decoded found =>
      simp only [List.nil_append]
      cases clampTo _ limit <;> rfl

/-- A journal entry with a list of tracks comes from a decoded answer. -/
theorem toUpstreamAnswer_tracks (reply : UpstreamReply TrackMatch) (tracks : List TrackMatch)
    (h : toUpstreamAnswer .tracks reply = .tracks tracks) : reply = .decoded tracks := by
  cases reply with
  | getFailed err => cases h
  | readFailed err => cases h
  | decodeFailed err => cases h
  | decoded found =>
    simp only [toUpstreamAnswer, UpstreamAnswer.tracks.injEq] at h
    rw [h]

/-- C12, counterexample: with `limit = 0`, which is not negative, and a
Last.fm that answers every track search with the two decoded candidates of
the query `bad guy`, `SearchSongs` panics on `offset/limit` before it asks
Last.fm: it returns no list, where the first `min(0, 2) = 0` elements of the
partition would be the empty list. -/
theorem LastFMAdapter.SearchSongs_zero_limit_counterexample :
    (0 : Int) ≤ 0 ∧
      (∀ req, (badGuyLastFM.trackSearch req ()).1 = .decoded badGuyTracks) ∧
      (LastFMAdapter.SearchSongs Char.toLower badGuyLastFM "bad guy".toList 0 0 ()).1 = none ∧
      (LastFMAdapter.SearchSongs Char.toLower badGuyLastFM "bad guy".toList 0 0 ()).1 ≠
        some (.ok ((specPartition Char.toLower "bad guy".toList badGuyTracks).take
          (min (0 : Int).toNat badGuyTracks.length))) ∧
      LastFMAdapter.songsJournal Char.toLower badGuyLastFM "bad guy".toList 0 0 () = [] :=
  ⟨by decide, fun _ => rfl, rfl,
    (by
      intro h
      have h2 : (none : Option (Except GoError (List Song))) = some _ := h
      cases h2),
    by decide⟩

/-- C12, amended. For every limit of at least 1 and every candidate list Last.fm
answers the request of `SearchSongs` with in decoded form, `SearchSongs` asks
Last.fm exactly once and the song list it returns is the first `min(limit, n)`
elements of the stable partition of the `n` candidates: the primary matches in
provider order followed by the others in provider order. The partition is a
rearrangement of the candidates' songs and each bucket keeps the provider
order. -/
theorem LastFMAdapter.SearchSongs_stable_partition {σ : Type} (lower : Char → Char)
    (api : LastFM σ) (query : GoString) (limit offset : Int) (s : σ)
    (tracks : List TrackMatch) (hlimit : 1 ≤ limit)
    (hdecoded : (api.trackSearch
      { method := "track.search".toList, text := query, limit := wrapInt64 (limit * 2),
        page := LastFMAdapter.page limit offset } s).1 = .decoded tracks) :
    (LastFMAdapter.SearchSongs lower api query limit offset s).1 =
        some (.ok ((specPartition lower query tracks).take (min limit.toNat tracks.length))) ∧
      LastFMAdapter.songsJournal lower api query limit offset s =
        [⟨{ method := "track.search".toList, text := query, limit := wrapInt64 (limit * 2),
            page := LastFMAdapter.page limit offset }, .tracks tracks⟩] ∧
      List.Perm (specPartition lower query tracks) (tracks.map (LastFMAdapter.toSong lower)) ∧
      List.Sublist
        ((tracks.filter (fun t => decide (specIsPrimary lower query t))).map
          (LastFMAdapter.toSong lower))
        (tracks.map (LastFMAdapter.toSong lower)) ∧
      List.Sublist
        ((tracks.filter (fun t => !decide (specIsPrimary lower query t))).map
          (LastFMAdapter.toSong lower))
        (tracks.map (LastFMAdapter.toSong lower)) := by
  have hz : limit ≠ 0 := by omega
  refine ⟨?_, ?_, specPartition_perm lower query tracks, (List.filter_sublist _).map _,
    (List.filter_sublist _).map _⟩
  · have hlen : tracks.length = (specPartition lower query tracks).length := by
      rw [(specPartition_perm lower query tracks).length_eq, List.length_map]
    rw [hlen, take_min_length]
    exact SearchSongs_of_decoded lower api query limit offset s tracks (by omega) hz hdecoded
  · rw [songsJournal_eq, if_neg hz, hdecoded]
    rfl

/-- C12, worked example of the amended statement: for the query `Eilish bad`
and the limit 2 Last.fm answers with three candidates, of which the second
and the third are primary matches; `SearchSongs` returns these two, ahead of
the first candidate, which the limit cuts off. For the query `bad guy` and the
two candidates of the specification the first candidate stays ahead of the
second. -/
theorem LastFMAdapter.SearchSongs_stable_partition_witness :
    ((1 : Int) ≤ 2 ∧
      (eilishLastFM.trackSearch
        { method := "track.search".toList, text := "Eilish bad".toList,
          limit := wrapInt64 (2 * 2), page := LastFMAdapter.page 2 0 } ()).1 =
        .decoded eilishTracks) ∧
    specPartition Char.toLower "Eilish bad".toList eilishTracks =
      ((eilishTracks.drop 1) ++ (eilishTracks.take 1)).map
        (LastFMAdapter.toSong Char.toLower) ∧
    (LastFMAdapter.SearchSongs Char.toLower eilishLastFM "Eilish bad".toList 2 0 ()).1 =
      some (.ok ((eilishTracks.drop 1).map (LastFMAdapter.toSong Char.toLower))) ∧
    (LastFMAdapter.SearchSongs Char.toLower eilishLastFM "Eilish bad".toList 2 0 ()).1 =
      some (.ok ((specPartition Char.toLower "Eilish bad".toList eilishTracks).take
        (min (2 : Int).toNat eilishTracks.length))) ∧
    (LastFMAdapter.SearchSongs Char.toLower badGuyLastFM "bad guy".toList 5 0 ()).1 =
      some (.ok (badGuyTracks.map (LastFMAdapter.toSong Char.toLower))) :=
  ⟨⟨by decide, rfl⟩, by decide, rfl,
    (LastFMAdapter.SearchSongs_stable_partition Char.toLower eilishLastFM "Eilish bad".toList
      2 0 () eilishTracks (by decide) rfl).1,
    rfl⟩

/-- The album loop started below five albums adds the albums of the next
matches until five are collected. -/
theorem albumsLoop_eq (lower : Char → Char) (found : List AlbumMatch) :
    ∀ albums : List Album, albums.length < 5 →
      LastFMAdapter.albumsLoop lower found albums =
        albums ++ (found.take (5 - albums.length)).map (LastFMAdapter.toAlbum lower) := by
  induction found with
  | nil => intro albums _; simp [LastFMAdapter.albumsLoop]
  | cons m rest ih =>
    intro albums hlen
    simp only [LastFMAdapter.albumsLoop, List.length_append, List.length_singleton]
    obtain ⟨k, hk⟩ : ∃ k, 5 - albums.length = k + 1 := ⟨4 - albums.length, by omega⟩
    rw [hk, List.take_succ_cons, List.map_cons]
    by_cases hfull : albums.length + 1 ≥ 5
    · rw [if_pos hfull]
      have hk0 : k = 0 := by omega
      rw [hk0, List.take_zero, List.map_nil]
    · rw [if_neg hfull, ih _ (by rw [List.length_append, List.length_singleton]; omega)]
      have hk' : 5 - (albums ++ [LastFMAdapter.toAlbum lower m]).length = k := by
        rw [List.length_append, List.length_singleton]; omega
      rw [hk', List.append_assoc, List.singleton_append]

/-- The artist loop started below five artists adds the artists of the next
matches until five are collected. -/
theorem artistsLoop_eq (lower : Char → Char) (found : List ArtistMatch) :
    ∀ artists : List Artist, artists.length < 5 →
      LastFMAdapter.artistsLoop lower found artists =
        artists ++ (found.take (5 - artists.length)).map (LastFMAdapter.toArtist lower) := by
  induction found with
  | nil => intro artists _; simp [LastFMAdapter.artistsLoop]
  | cons m rest ih =>
    intro artists hlen
    simp only [LastFMAdapter.artistsLoop, List.length_append, List.length_singleton]
    obtain ⟨k, hk⟩ : ∃ k, 5 - artists.length = k + 1 := ⟨4 - artists.length, by omega⟩
    rw [hk, List.take_succ_cons, List.map_cons]
    by_cases hfull : artists.length + 1 ≥ 5
    · rw [if_pos hfull]
      have hk0 : k = 0 := by omega
      rw [hk0, List.take_zero, List.map_nil]
    · rw [if_neg hfull, ih _ (by rw [List.length_append, List.length_singleton]; omega)]
      have hk' : 5 - (artists ++ [LastFMAdapter.toArtist lower m]).length = k := by
        rw [List.length_append, List.length_singleton]; omega
      rw [hk', List.append_assoc, List.singleton_append]

/-- What `SearchAlbums` does for a limit other than zero: one request, and the
first five albums when the answer decodes. -/
theorem SearchAlbums_eq {σ : Type} (lower : Char → Char) (api : LastFM σ) (term : GoString)
    (limit offset : Int) (s : σ) :
    LastFMAdapter.albumsJournal lower api term limit offset s =
        (if limit = 0 then []
        else
          [⟨{ method := "album.search".toList, text := term, limit := limit,
              page := LastFMAdapter.page limit offset },
            toUpstreamAnswer .albums (api.albumSearch
              { method := "album.search".toList, text := term, limit := limit,
                page := LastFMAdapter.page limit offset } s).1⟩]) ∧
      (limit ≠ 0 → ∀ found, (api.albumSearch
          { method := "album.search".toList, text := term, limit := limit,
            page := LastFMAdapter.page limit offset } s).1 = .decoded found →
        (LastFMAdapter.SearchAlbums lower api term limit offset s).1 =
          some (.ok ((found.take 5).map (LastFMAdapter.toAlbum lower)))) ∧
      (∀ albums, (LastFMAdapter.SearchAlbums lower api term limit offset s).1 =
          some (.ok albums) → albums.length ≤ 5) := by
  unfold LastFMAdapter.albumsJournal LastFMAdapter.SearchAlbums
  by_cases hz : limit = 0
  · simp only [if_pos hz]
    refine ⟨trivial, ?_, ?_⟩
    · intro h; exact absurd hz h
    · intro albums h; cases h
  · simp only [if_neg hz, logged_albumSearch]
    generalize api.albumSearch
      { method := "album.search".toList, text := term, limit := limit,
        page := LastFMAdapter.page limit offset } s = r
    rcases r with ⟨reply, s1⟩
    cases reply with
    | getFailed err =>
      refine ⟨rfl, ?_, ?_⟩
      · intro _ found h; cases h
      · intro albums h; cases h
    | readFailed err =>
      refine ⟨rfl, ?_, ?_⟩
      · intro _ found h; cases h
      · intro albums h; cases h
    | decodeFailed err =>
      refine ⟨rfl, ?_, ?_⟩
      · intro _ found h; cases h
      · intro albums h; cases h
    | decoded found =>
      refine ⟨rfl, ?_, ?_⟩
      · intro _ found2 h
        simp only [UpstreamReply.decoded.injEq] at h
        subst h
        simp only [albumsLoop_eq lower found [] (by decide), List.nil_append, List.length_nil,
          Nat.sub_zero]
      · intro albums h
        simp only [albumsLoop_eq lower found [] (by decide), List.nil_append, List.length_nil,
          Nat.sub_zero, Option.some.injEq, Except.ok.injEq] at h
        rw [← h, List.length_map, List.length_take]
        exact Nat.min_le_left _ _

/-- What `SearchArtists` does for a limit other than zero: one request, and the
first five artists when the answer decodes. -/
theorem SearchArtists_eq {σ : Type} (lower : Char → Char) (api : LastFM σ) (term : GoString)
    (limit offset : Int) (s : σ) :
    LastFMAdapter.artistsJournal lower api term limit offset s =
        (if limit = 0 then []
        else
          [⟨{ method := "artist.search".toList, text := term, limit := limit,
              page := LastFMAdapter.page limit offset },
            toUpstreamAnswer .artists (api.artistSearch
              { method := "artist.search".toList, text := term, limit := limit,
                page := LastFMAdapter.page limit offset } s).1⟩]) ∧
      (limit ≠ 0 → ∀ found, (api.artistSearch
          { method := "artist.search".toList, text := term, limit := limit,
            page := LastFMAdapter.page limit offset } s).1 = .decoded found →
        (LastFMAdapter.SearchArtists lower api term limit offset s).1 =
          some (.ok ((found.take 5).map (LastFMAdapter.toArtist lower)))) ∧
      (∀ artists, (LastFMAdapter.SearchArtists lower api term limit offset s).1 =
          some (.ok artists) → artists.length ≤ 5) := by
  unfold LastFMAdapter.artistsJournal LastFMAdapter.SearchArtists
  by_cases hz : limit = 0
  · simp only [if_pos hz]
    refine ⟨trivial, ?_, ?_⟩
    · intro h; exact absurd hz h
    · intro artists h; cases h
  · simp only [if_neg hz, logged_artistSearch]
    generalize api.artistSearch
      { method := "artist.search".toList, text := term, limit := limit,
        page := LastFMAdapter.page limit offset } s = r
    rcases r with ⟨reply, s1⟩
    cases reply with
    | getFailed err =>
      refine ⟨rfl, ?_, ?_⟩
      · intro _ found h; cases h
      · intro artists h; cases h
    | readFailed err =>
      refine ⟨rfl, ?_, ?_⟩
      · intro _ found h; cases h
      · intro artists h; cases h
    | decodeFailed err =>
      refine ⟨rfl, ?_, ?_⟩
      · intro _ found h; cases h
      · intro artists h; cases h
    | decoded found =>
      refine ⟨rfl, ?_, ?_⟩
      · intro _ found2 h
        simp only [UpstreamReply.decoded.injEq] at h
        subst h
        simp only [artistsLoop_eq lower found [] (by decide), List.nil_append, List.length_nil,
          Nat.sub_zero]
      · intro artists h
        simp only [artistsLoop_eq lower found [] (by decide), List.nil_append, List.length_nil,
          Nat.sub_zero, Option.some.injEq, Except.ok.injEq] at h
        rw [← h, List.length_map, List.length_take]
        exact Nat.min_le_left _ _

/-- A journal entry with a list of albums comes from a decoded answer. -/
theorem toUpstreamAnswer_albums (reply : UpstreamReply AlbumMatch) (found : List AlbumMatch)
    (h : toUpstreamAnswer .albums reply = .albums found) : reply = .decoded found := by
  cases reply with
  | getFailed err => cases h
  | readFailed err => cases h
  | decodeFailed err => cases h
  | decoded found2 =>
    simp only [toUpstreamAnswer, UpstreamAnswer.albums.injEq] at h
    rw [h]

/-- A journal entry with a list of artists comes from a decoded answer. -/
theorem toUpstreamAnswer_artists (reply : UpstreamReply ArtistMatch) (found : List ArtistMatch)
    (h : toUpstreamAnswer .artists reply = .artists found) : reply = .decoded found := by
  cases reply with
  | getFailed err => cases h
  | readFailed err => cases h
  | decodeFailed err => cases h
  | decoded found2 =>
    simp only [toUpstreamAnswer, UpstreamAnswer.artists.injEq] at h
    rw [h]

/-- A list of at most five elements is left as it is by the truncation to a
limit of six or more. -/
theorem clampTo_of_short {α : Type} (xs : List α) (limit : Int) (hlen : xs.length ≤ 5)
    (hlimit : 6 ≤ limit) : clampTo xs limit = some xs := by
  unfold clampTo
  rw [if_neg]
  omega

/-- C17, counterexample: with a zero limit `SearchAlbums` and `SearchArtists`
return nothing at all. Last.fm would answer every request with seven matches,
but both methods panic on `offset/limit` before they ask it, so the result is
not the first five matches. -/
theorem LastFMAdapter.zero_limit_albums_artists_counterexample :
    (∀ req, (sevenAlbumsLastFM.albumSearch req ()).1 = .decoded sevenAlbums) ∧
      (∀ req, (sevenAlbumsLastFM.artistSearch req ()).1 = .decoded sevenArtists) ∧
      (LastFMAdapter.SearchAlbums Char.toLower sevenAlbumsLastFM "test".toList 0 0 ()).1 =
        none ∧
      (LastFMAdapter.SearchAlbums Char.toLower sevenAlbumsLastFM "test".toList 0 0 ()).1 ≠
        some (.ok ((sevenAlbums.take 5).map (LastFMAdapter.toAlbum Char.toLower))) ∧
      LastFMAdapter.albumsJournal Char.toLower sevenAlbumsLastFM "test".toList 0 0 () = [] ∧
      (LastFMAdapter.SearchArtists Char.toLower sevenAlbumsLastFM "test".toList 0 0 ()).1 =
        none ∧
      (LastFMAdapter.SearchArtists Char.toLower sevenAlbumsLastFM "test".toList 0 0 ()).1 ≠
        some (.ok ((sevenArtists.take 5).map (LastFMAdapter.toArtist Char.toLower))) ∧
      LastFMAdapter.artistsJournal Char.toLower sevenAlbumsLastFM "test".toList 0 0 () = [] :=
  ⟨fun _ => rfl, fun _ => rfl, rfl, (by
      intro h
      cases h), rfl, rfl, (by
      intro h
      cases h), rfl⟩

/-- C17, amended: for every limit other than zero and every answer Last.fm
decodes, `SearchAlbums` and `SearchArtists` ask Last.fm exactly once, for the
page of the request, and return the first up to five matches of that answer in
their order; whatever list they return has at most five items, so for a limit
from 6 to 25 the truncation in `MusicService.Search` leaves it as it is, even
when Last.fm answered with more. -/
theorem LastFMAdapter.albums_artists_capped {σ : Type} (lower : Char → Char) (api : LastFM σ)
    (term : GoString) (limit offset : Int) (s : σ) (hz : limit ≠ 0) :
    (∀ found, (api.albumSearch
          { method := "album.search".toList, text := term, limit := limit,
            page := LastFMAdapter.page limit offset } s).1 = .decoded found →
      (LastFMAdapter.SearchAlbums lower api term limit offset s).1 =
          some (.ok ((found.take 5).map (LastFMAdapter.toAlbum lower))) ∧
        LastFMAdapter.albumsJournal lower api term limit offset s =
          [⟨{ method := "album.search".toList, text := term, limit := limit,
              page := LastFMAdapter.page limit offset }, .albums found⟩]) ∧
    (∀ found, (api.artistSearch
          { method := "artist.search".toList, text := term, limit := limit,
            page := LastFMAdapter.page limit offset } s).1 = .decoded found →
      (LastFMAdapter.SearchArtists lower api term limit offset s).1 =
          some (.ok ((found.take 5).map (LastFMAdapter.toArtist lower))) ∧
        LastFMAdapter.artistsJournal lower api term limit offset s =
          [⟨{ method := "artist.search".toList, text := term, limit := limit,
              page := LastFMAdapter.page limit offset }, .artists found⟩]) ∧
    (∀ albums, (LastFMAdapter.SearchAlbums lower api term limit offset s).1 =
        some (.ok albums) →
      albums.length ≤ 5 ∧ (6 ≤ limit → limit ≤ 25 → clampTo albums limit = some albums)) ∧
    (∀ artists, (LastFMAdapter.SearchArtists lower api term limit offset s).1 =
        some (.ok artists) →
      artists.length ≤ 5 ∧ (6 ≤ limit → limit ≤ 25 → clampTo artists limit = some artists)) := by
  obtain ⟨hja, hda, hla⟩ := SearchAlbums_eq lower api term limit offset s
  obtain ⟨hjr, hdr, hlr⟩ := SearchArtists_eq lower api term limit offset s
  refine ⟨?_, ?_, ?_, ?_⟩
  · intro found hfound
    refine ⟨hda hz found hfound, ?_⟩
    rw [hja, if_neg hz, hfound]
    rfl
  · intro found hfound
    refine ⟨hdr hz found hfound, ?_⟩
    rw [hjr, if_neg hz, hfound]
    rfl
  · intro albums h
    exact ⟨hla albums h, fun h6 _ => clampTo_of_short albums limit (hla albums h) h6⟩
  · intro artists h
    exact ⟨hlr artists h, fun h6 _ => clampTo_of_short artists limit (hlr artists h) h6⟩

/-- C17, worked example: the limit is 10 and Last.fm answers the album search
with seven albums and the artist search with seven artists; `SearchAlbums`
returns the albums `0` to `4` and `SearchArtists` the artists `N0` to `N4`, each
after one request for page 1, and the truncation to the limit keeps all five. -/
theorem LastFMAdapter.albums_artists_capped_witness :
    (10 : Int) ≠ 0 ∧ sevenAlbums.length = 7 ∧ sevenArtists.length = 7 ∧
      ((LastFMAdapter.SearchAlbums Char.toLower sevenAlbumsLastFM "test".toList 10 0 ()).1 =
          some (.ok ((sevenAlbums.take 5).map (LastFMAdapter.toAlbum Char.toLower))) ∧
        LastFMAdapter.albumsJournal Char.toLower sevenAlbumsLastFM "test".toList 10 0 () =
          [⟨{ method := "album.search".toList, text := "test".toList, limit := 10,
              page := LastFMAdapter.page 10 0 }, .albums sevenAlbums⟩]) ∧
      ((LastFMAdapter.SearchArtists Char.toLower sevenAlbumsLastFM "test".toList 10 0 ()).1 =
          some (.ok ((sevenArtists.take 5).map (LastFMAdapter.toArtist Char.toLower))) ∧
        LastFMAdapter.artistsJournal Char.toLower sevenAlbumsLastFM "test".toList 10 0 () =
          [⟨{ method := "artist.search".toList, text := "test".toList, limit := 10,
              page := LastFMAdapter.page 10 0 }, .artists sevenArtists⟩]) ∧
      ((sevenAlbums.take 5).map (LastFMAdapter.toAlbum Char.toLower)).map (fun a => a.Attributes.Name) =
        ["0".toList, "1".toList, "2".toList, "3".toList, "4".toList] ∧
      ((sevenArtists.take 5).map (LastFMAdapter.toArtist Char.toLower)).map (fun a => a.Attributes.Name) =
        ["N0".toList, "N1".toList, "N2".toList, "N3".toList, "N4".toList] ∧
      LastFMAdapter.page 10 0 = 1 ∧
      clampTo ((sevenAlbums.take 5).map (LastFMAdapter.toAlbum Char.toLower)) 10 =
        some ((sevenAlbums.take 5).map (LastFMAdapter.toAlbum Char.toLower)) ∧
      clampTo ((sevenArtists.take 5).map (LastFMAdapter.toArtist Char.toLower)) 10 =
        some ((sevenArtists.take 5).map (LastFMAdapter.toArtist Char.toLower)) :=
  ⟨by decide, by decide, by decide,
    (LastFMAdapter.albums_artists_capped Char.toLower sevenAlbumsLastFM "test".toList 10 0 ()
      (by decide)).1 sevenAlbums rfl,
    (LastFMAdapter.albums_artists_capped Char.toLower sevenAlbumsLastFM "test".toList 10 0 ()
      (by decide)).2.1 sevenArtists rfl,
    by decide, by decide, by decide,
    ((LastFMAdapter.albums_artists_capped Char.toLower sevenAlbumsLastFM "test".toList 10 0 ()
      (by decide)).2.2.1 _ ((LastFMAdapter.albums_artists_capped Char.toLower sevenAlbumsLastFM
        "test".toList 10 0 () (by decide)).1 sevenAlbums rfl).1).2 (by decide) (by decide),
    ((LastFMAdapter.albums_artists_capped Char.toLower sevenAlbumsLastFM "test".toList 10 0 ()
      (by decide)).2.2.2 _ ((LastFMAdapter.albums_artists_capped Char.toLower sevenAlbumsLastFM
        "test".toList 10 0 () (by decide)).2.1 sevenArtists rfl).1).2 (by decide) (by decide)⟩

/-! ## Panics and the page number -/

/-- Wrapping leaves a value of the 64-bit range as it is. -/
theorem wrapInt64_of_range (x : Int) (hlo : -(2 ^ 63) ≤ x) (hhi : x < 2 ^ 63) :
    wrapInt64 x = x := by
  unfold wrapInt64
  rw [Int.emod_eq_of_lt (by omega) (by omega)]
  omega

/-- The page number of a query with `limit ≥ 1` and an offset of the 64-bit
range that is not negative, unless `limit = 1` meets the largest offset. -/
theorem page_of_normalised (limit offset : Int) (h1 : 1 ≤ limit) (h0 : 0 ≤ offset)
    (hmax : offset ≤ 2 ^ 63 - 1) (hne : limit = 1 → offset ≠ 2 ^ 63 - 1) :
    LastFMAdapter.page limit offset = offset / limit + 1 ∧
      1 ≤ LastFMAdapter.page limit offset := by
  unfold LastFMAdapter.page
  rw [Int.tdiv_eq_ediv h0 (by omega)]
  have hq0 : 0 ≤ offset / limit := Int.ediv_nonneg h0 (by omega)
  have hmul : offset / limit * limit ≤ offset := Int.ediv_mul_le offset (by omega)
  have hq : offset / limit ≤ 2 ^ 63 - 2 := by
    by_cases hl : limit = 1
    · have := hne hl
      rw [hl, Int.ediv_one]
      omega
    · have h2 : 2 ≤ limit := by omega
      have : offset / limit * 2 ≤ offset / limit * limit :=
        Int.mul_le_mul_of_nonneg_left h2 hq0
      omega
  rw [wrapInt64_of_range (offset / limit) (by omega) (by omega),
    wrapInt64_of_range (offset / limit + 1) (by omega) (by omega)]
  exact ⟨rfl, by omega⟩

/-- With a limit that is not negative the truncation does not panic. -/
theorem clampTo_ne_none {α : Type} (xs : List α) (limit : Int) (h : 0 ≤ limit) :
    clampTo xs limit ≠ none := by
  unfold clampTo sliceTo
  by_cases hlen : (xs.length : Int) > limit
  · rw [if_pos hlen, if_pos ⟨h, le_of_lt hlen⟩]
    exact Option.some_ne_none _
  · rw [if_neg hlen]
    exact Option.some_ne_none _

/-- `SearchSongs` does not panic for a limit of at least 1. -/
theorem SearchSongs_ne_none {σ : Type} (lower : Char → Char) (api : LastFM σ)
    (query : GoString) (limit offset : Int) (s : σ) (h1 : 1 ≤ limit) :
    (LastFMAdapter.SearchSongs lower api query limit offset s).1 ≠ none := by
  unfold LastFMAdapter.SearchSongs
  rw [if_neg (by omega)]
  generalize api.trackSearch _ s = r
  rcases r with ⟨reply, s1⟩
  cases reply with
  | getFailed err => exact Option.some_ne_none _
  | readFailed err => exact Option.some_ne_none _
  | decodeFailed err => exact Option.some_ne_none _
  | decoded found =>
    simp only
    cases hc : clampTo _ limit with
    | none => exact absurd hc (clampTo_ne_none _ _ (by omega))
    | some songs1 => exact Option.some_ne_none _

/-- `SearchAlbums` does not panic for a limit other than zero. -/
theorem SearchAlbums_ne_none {σ : Type} (lower : Char → Char) (api : LastFM σ)
    (term : GoString) (limit offset : Int) (s : σ) (hz : limit ≠ 0) :
    (LastFMAdapter.SearchAlbums lower api term limit offset s).1 ≠ none := by
  unfold LastFMAdapter.SearchAlbums
  rw [if_neg hz]
  generalize api.albumSearch _ s = r
  rcases r with ⟨reply, s1⟩
  cases reply <;> exact Option.some_ne_none _

/-- `SearchArtists` does not panic for a limit other than zero. -/
theorem SearchArtists_ne_none {σ : Type} (lower : Char → Char) (api : LastFM σ)
    (term : GoString) (limit offset : Int) (s : σ) (hz : limit ≠ 0) :
    (LastFMAdapter.SearchArtists lower api term limit offset s).1 ≠ none := by
  unfold LastFMAdapter.SearchArtists
  rw [if_neg hz]
  generalize api.artistSearch _ s = r
  rcases r with ⟨reply, s1⟩
  cases reply <;> exact Option.some_ne_none _

/-- The loop of `MusicService.Search` does not panic for a limit that is not
negative. -/
theorem searchLoop_ne_none {σ : Type} (p : MusicProvider σ) (params : SearchParameters)
    (hlim : 0 ≤ params.Limit) (types : List SearchResultType) :
    ∀ (results : SearchResults) (s : σ),
      (MusicService.searchLoop p params types results s).1 ≠ none := by
  induction types with
  | nil => intro results s; exact Option.some_ne_none _
  | cons t rest ih =>
    intro results s
    simp only [MusicService.searchLoop]
    split_ifs
    · rcases p.SearchSongs params.Term params.Limit params.Offset s with ⟨reply, s1⟩
      cases reply with
      | error err => exact Option.some_ne_none _
      | ok songs =>
        simp only
        cases hc : clampTo songs params.Limit with
        | none => exact absurd hc (clampTo_ne_none _ _ hlim)
        | some songs1 => exact ih _ _
    · rcases p.SearchAlbums params.Term params.Limit params.Offset s with ⟨reply, s1⟩
      cases reply with
      | error err => exact Option.some_ne_none _
      | ok albums =>
        simp only
        cases hc : clampTo albums params.Limit with
        | none => exact absurd hc (clampTo_ne_none _ _ hlim)
        | some albums1 => exact ih _ _
    · rcases p.SearchArtists params.Term params.Limit params.Offset s with ⟨reply, s1⟩
      cases reply with
      | error err => exact Option.some_ne_none _
      | ok artists =>
        simp only
        cases hc : clampTo artists params.Limit with
        | none => exact absurd hc (clampTo_ne_none _ _ hlim)
        | some artists1 => exact ih _ _
    · exact ih _ _

/-- What `strconv.Atoi` yields fits a signed 64-bit integer. -/
theorem Atoi_range (s : GoString) (n : Int) (h : Atoi s = some n) :
    -(2 ^ 63) ≤ n ∧ n ≤ 2 ^ 63 - 1 := by
  unfold Atoi at h
  simp only at h
  split_ifs at h <;>
    · simp only [Option.some.injEq] at h
      rw [← h]
      constructor <;> omega

/-- The offset the handler accepts is not negative and fits a signed 64-bit
integer. -/
theorem parseOffset_range (offsetStr : GoString) (offset : Int)
    (h : SearchHandler.parseOffset offsetStr = some offset) :
    0 ≤ offset ∧ offset ≤ 2 ^ 63 - 1 := by
  unfold SearchHandler.parseOffset at h
  by_cases hempty : offsetStr = []
  · rw [if_neg (not_not.mpr hempty)] at h
    simp only [Option.some.injEq] at h
    omega
  · rw [if_pos hempty] at h
    cases hn : Atoi offsetStr with
    | none => rw [hn] at h; cases h
    | some n =>
      rw [hn] at h
      have hr := Atoi_range offsetStr n hn
      by_cases hneg : n < 0
      · simp only [if_pos hneg, Option.some.injEq] at h
        omega
      · simp only [if_neg hneg, Option.some.injEq] at h
        omega

/-- The handler only ever passes a normalised query to the service. -/
theorem journal_normalised {σ : Type} (svc : MusicServicePort σ) (r : SearchRequest) (s : σ) :
    ∀ params ∈ SearchHandler.journal svc r s,
      1 ≤ params.Limit ∧ params.Limit ≤ 25 ∧ 0 ≤ params.Offset ∧
        params.Offset ≤ 2 ^ 63 - 1 := by
  by_cases hbad : r.malformed
  · rw [(handler_of_malformed svc r s hbad).2]
    intro params h; cases h
  · obtain ⟨hterm, hlimit, hoffset⟩ := valid_of_not_malformed r hbad
    obtain ⟨offset, ho, _⟩ := parseOffset_of_valid r.offset hoffset
    rw [(handler_of_valid svc r s _ offset hterm (parseLimit_of_valid r.limit hlimit) ho).1]
    intro params h
    rw [List.mem_singleton] at h
    rw [h]
    exact ⟨(specLimit_bounds _).1, (specLimit_bounds _).2, (parseOffset_range _ _ ho).1,
      (parseOffset_range _ _ ho).2⟩

/-- C18, counterexample: the request `term=test&limit=1&offset=9223372036854775807`
reaches the service with the normalised query `limit = 1`,
`offset = 9223372036854775807`, and for it the page number `offset/limit + 1`
wraps to `-9223372036854775808`, which is not at least 1. -/
theorem LastFMAdapter.page_overflow_counterexample :
    SearchHandler.journal (mockMusicProvider none) lastPageRequest () =
        [⟨"test".toList, 1, 9223372036854775807, [ArtistsType, SongsType, AlbumsType]⟩] ∧
      LastFMAdapter.page 1 9223372036854775807 = -9223372036854775808 ∧
      ¬ (1 ≤ LastFMAdapter.page 1 9223372036854775807) := by
  decide

/-- C18, amended. For every normalised query (`1 ≤ limit ≤ 25`, `offset ≥ 0`
within the 64-bit range) other than `limit = 1` with the largest offset
`2^63 - 1`, the divisor of the page number is not zero, the page number is
`offset/limit + 1` and at least 1, and neither the three adapter methods nor
`MusicService.Search` panic. For every query, a panic of an adapter method
needs `limit ≤ 0` and a panic of `MusicService.Search` needs `Limit < 0`, and
the handler passes neither. -/
theorem LastFMAdapter.normalised_query_is_safe {σ τ υ : Type} (lower : Char → Char)
    (api : LastFM σ) (p : MusicProvider τ) (svc : MusicServicePort υ) (query : GoString)
    (limit offset : Int) (types : List SearchResultType) (s : σ) (t : τ)
    (h1 : 1 ≤ limit) (h25 : limit ≤ 25) (h0 : 0 ≤ offset) (hmax : offset ≤ 2 ^ 63 - 1)
    (hne : limit = 1 → offset ≠ 2 ^ 63 - 1) :
    (limit ≠ 0 ∧ LastFMAdapter.page limit offset = offset / limit + 1 ∧
      1 ≤ LastFMAdapter.page limit offset) ∧
    ((LastFMAdapter.SearchSongs lower api query limit offset s).1 ≠ none ∧
      (LastFMAdapter.SearchAlbums lower api query limit offset s).1 ≠ none ∧
      (LastFMAdapter.SearchArtists lower api query limit offset s).1 ≠ none ∧
      (∀ (α : Type) (xs : List α), clampTo xs limit ≠ none) ∧
      (MusicService.Search p ⟨query, limit, offset, types⟩ t).1 ≠ none) ∧
    ((∀ l o, (LastFMAdapter.SearchSongs lower api query l o s).1 = none → l ≤ 0) ∧
      (∀ l o, (LastFMAdapter.SearchAlbums lower api query l o s).1 = none → l = 0) ∧
      (∀ l o, (LastFMAdapter.SearchArtists lower api query l o s).1 = none → l = 0) ∧
      (∀ params, (MusicService.Search p params t).1 = none → params.Limit < 0)) ∧
    (∀ (r : SearchRequest) (u : υ), ∀ params ∈ SearchHandler.journal svc r u,
      1 ≤ params.Limit ∧ params.Limit ≤ 25 ∧ 0 ≤ params.Offset ∧
        params.Offset ≤ 2 ^ 63 - 1) := by
  have _ := h25
  refine ⟨⟨by omega, page_of_normalised limit offset h1 h0 hmax hne⟩, ⟨?_, ?_, ?_, ?_, ?_⟩,
    ⟨?_, ?_, ?_, ?_⟩, fun r u => journal_normalised svc r u⟩
  · exact SearchSongs_ne_none lower api query limit offset s h1
  · exact SearchAlbums_ne_none lower api query limit offset s (by omega)
  · exact SearchArtists_ne_none lower api query limit offset s (by omega)
  · intro α xs
    exact clampTo_ne_none xs limit (by omega)
  · exact searchLoop_ne_none p _ (by show (0 : Int) ≤ limit; omega) types {} t
  · intro l o hnone
    by_contra hl
    exact SearchSongs_ne_none lower api query l o s (by omega) hnone
  · intro l o hnone
    by_contra hl
    exact SearchAlbums_ne_none lower api query l o s hl hnone
  · intro l o hnone
    by_contra hl
    exact SearchArtists_ne_none lower api query l o s hl hnone
  · intro params hnone
    by_contra hl
    exact searchLoop_ne_none p params (by omega) params.Types {} t hnone

/-- C18, worked example of the amended statement: `limit = 5`, `offset = 12`
gives the page 3. -/
theorem LastFMAdapter.normalised_query_is_safe_witness :
    ((1 : Int) ≤ 5 ∧ (5 : Int) ≤ 25 ∧ (0 : Int) ≤ 12 ∧ (12 : Int) ≤ 2 ^ 63 - 1 ∧
      ((5 : Int) = 1 → (12 : Int) ≠ 2 ^ 63 - 1)) ∧
    LastFMAdapter.page 5 12 = 3 ∧
    ((5 : Int) ≠ 0 ∧ LastFMAdapter.page 5 12 = 12 / 5 + 1 ∧ 1 ≤ LastFMAdapter.page 5 12) :=
  ⟨by decide, by decide,
    (LastFMAdapter.normalised_query_is_safe Char.toLower sampleLastFM twoSongsProvider
      (mockMusicProvider none) "test".toList 5 12 [SongsType] () () (by decide) (by decide)
      (by decide) (by decide) (by decide)).1⟩

/-! ## The error of the search aggregator -/

/-- When the loop returns an error, the journal ends with the failed call, the
calls before it answered with lists, the error names the category of the
failed call and wraps its error, and the categories called are the first
recognised entries of `types`, in order. -/
theorem searchLoop_logged_error {σ : Type} (p : MusicProvider σ) (params : SearchParameters)
    (types : List SearchResultType) :
    ∀ (results : SearchResults) (s : σ) (log : List ProviderCall) (ret : SearchReturn)
      (e : GoError),
      (MusicService.searchLoop p.logged params types results (s, log)).1 = some ret →
      ret.err = some e →
      ret.results = none ∧
      ∃ calls c cause,
        (MusicService.searchLoop p.logged params types results (s, log)).2.2 =
          log ++ (calls ++ [c]) ∧
        (∀ d ∈ calls, d.err = none) ∧ c.err = some cause ∧
        (c.category = SongsType ∨ c.category = AlbumsType ∨ c.category = ArtistsType) ∧
        e.Error = "error searching ".toList ++ c.category ++ ": ".toList ++ cause.Error ∧
        e.Unwrap = some cause ∧
        List.IsPrefix ((calls ++ [c]).map (fun d => d.category)) (types.filter recognised) := by
  induction types with
  | nil =>
    intro results s log ret e hret herr
    simp only [MusicService.searchLoop, Option.some.injEq] at hret
    rw [← hret] at herr
    cases herr
  | cons t rest ih =>
    intro results s log
    simp only [MusicService.searchLoop]
    split_ifs with h1 h2 h3
    · rw [logged_SearchSongs]
      rcases p.SearchSongs params.Term params.Limit params.Offset s with ⟨reply, s1⟩
      cases reply with
      | error err =>
        intro ret e hret herr
        simp only [Option.some.injEq] at hret
        subst hret
        simp only [Option.some.injEq] at herr
        subst herr
        refine ⟨rfl, [], ⟨SongsType, params.Term, params.Limit, params.Offset, .failed err⟩, err,
          (by simp [toAnswer]), (by intro d hd; cases hd), rfl, (by simp), rfl, rfl, ?_⟩
        rw [h1]
        exact List.prefix_iff_eq_append.mpr (by simp [recognised, SongsType])
      | ok songs =>
        simp only
        cases hclamp : clampTo songs params.Limit with
        | none => intro ret e hret; cases hret
        | some songs1 =>
          intro ret e hret herr
          obtain ⟨hnil, calls, c, cause, hj, hcalls, hc, hcat, hmsg, hunwrap, hpre⟩ :=
            ih _ _ _ ret e hret herr
          refine ⟨hnil,
            ⟨SongsType, params.Term, params.Limit, params.Offset, .songs songs⟩ :: calls,
            c, cause, (by rw [hj]; simp [toAnswer]), ?_, hc, hcat, hmsg, hunwrap, ?_⟩
          · intro d hd
            rcases List.mem_cons.mp hd with hd | hd
            · rw [hd]; rfl
            · exact hcalls d hd
          · rw [h1]
            have hrec : recognised SongsType = true := by decide
            simp only [List.filter_cons, hrec, if_true, List.cons_append, List.map_cons]
            exact (List.cons_prefix_cons).mpr ⟨rfl, hpre⟩
    · rw [logged_SearchAlbums]
      rcases p.SearchAlbums params.Term params.Limit params.Offset s with ⟨reply, s1⟩
      cases reply with
      | error err =>
        intro ret e hret herr
        simp only [Option.some.injEq] at hret
        subst hret
        simp only [Option.some.injEq] at herr
        subst herr
        refine ⟨rfl, [], ⟨AlbumsType, params.Term, params.Limit, params.Offset, .failed err⟩, err,
          (by simp [toAnswer]), (by intro d hd; cases hd), rfl, (by simp), rfl, rfl, ?_⟩
        rw [h2]
        exact List.prefix_iff_eq_append.mpr (by simp [recognised, AlbumsType])
      | ok albums =>
        simp only
        cases hclamp : clampTo albums params.Limit with
        | none => intro ret e hret; cases hret
        | some albums1 =>
          intro ret e hret herr
          obtain ⟨hnil, calls, c, cause, hj, hcalls, hc, hcat, hmsg, hunwrap, hpre⟩ :=
            ih _ _ _ ret e hret herr
          refine ⟨hnil,
            ⟨AlbumsType, params.Term, params.Limit, params.Offset, .albums albums⟩ :: calls,
            c, cause, (by rw [hj]; simp [toAnswer]), ?_, hc, hcat, hmsg, hunwrap, ?_⟩
          · intro d hd
            rcases List.mem_cons.mp hd with hd | hd
            · rw [hd]; rfl
            · exact hcalls d hd
          · rw [h2]
            have hrec : recognised AlbumsType = true := by decide
            simp only [List.filter_cons, hrec, if_true, List.cons_append, List.map_cons]
            exact (List.cons_prefix_cons).mpr ⟨rfl, hpre⟩
    · rw [logged_SearchArtists]
      rcases p.SearchArtists params.Term params.Limit params.Offset s with ⟨reply, s1⟩
      cases reply with
      | error err =>
        intro ret e hret herr
        simp only [Option.some.injEq] at hret
        subst hret
        simp only [Option.some.injEq] at herr
        subst herr
        refine ⟨rfl, [], ⟨ArtistsType, params.Term, params.Limit, params.Offset, .failed err⟩, err,
          (by simp [toAnswer]), (by intro d hd; cases hd), rfl, (by simp), rfl, rfl, ?_⟩
        rw [h3]
        exact List.prefix_iff_eq_append.mpr (by simp [recognised, ArtistsType])
      | ok artists =>
        simp only
        cases hclamp : clampTo artists params.Limit with
        | none => intro ret e hret; cases hret
        | some artists1 =>
          intro ret e hret herr
          obtain ⟨hnil, calls, c, cause, hj, hcalls, hc, hcat, hmsg, hunwrap, hpre⟩ :=
            ih _ _ _ ret e hret herr
          refine ⟨hnil,
            ⟨ArtistsType, params.Term, params.Limit, params.Offset, .artists artists⟩ :: calls,
            c, cause, (by rw [hj]; simp [toAnswer]), ?_, hc, hcat, hmsg, hunwrap, ?_⟩
          · intro d hd
            rcases List.mem_cons.mp hd with hd | hd
            · rw [hd]; rfl
            · exact hcalls d hd
          · rw [h3]
            have hrec : recognised ArtistsType = true := by decide
            simp only [List.filter_cons, hrec, if_true, List.cons_append, List.map_cons]
            exact (List.cons_prefix_cons).mpr ⟨rfl, hpre⟩
    · intro ret e hret herr
      obtain ⟨hnil, calls, c, cause, hj, hcalls, hc, hcat, hmsg, hunwrap, hpre⟩ :=
        ih _ _ _ ret e hret herr
      refine ⟨hnil, calls, c, cause, hj, hcalls, hc, hcat, hmsg, hunwrap, ?_⟩
      have hrec : recognised t = false := by
        simp only [ArtistsType, SongsType, AlbumsType, String.toList] at h1 h2 h3
        simp [recognised, h1, h2, h3]
      simp only [List.filter_cons, hrec]
      exact hpre

/-- C15. When `MusicService.Search` fails, the error it returns identifies the
failing category and wraps the cause: the journal of the provider calls ends
with the failed call, all calls before it succeeded and no call follows it;
the categories called are the first recognised entries of `params.Types` in
order; the message is `error searching <songs|albums|artists>: ` followed by
the provider error's message, and unwrapping the error yields the provider's
error. The result next to it is `nil`. -/
theorem MusicService.Search_error_names_category {σ : Type} (p : MusicProvider σ)
    (params : SearchParameters) (s : σ) (ret : SearchReturn) (e : GoError)
    (hret : (MusicService.Search p params s).1 = some ret) (herr : ret.err = some e) :
    ret.results = none ∧
      ∃ calls c cause,
        MusicService.journal p params s = calls ++ [c] ∧
        (∀ d ∈ calls, d.err = none) ∧ c.err = some cause ∧
        (c.category = SongsType ∨ c.category = AlbumsType ∨ c.category = ArtistsType) ∧
        e.Error = "error searching ".toList ++ c.category ++ ": ".toList ++ cause.Error ∧
        e.Unwrap = some cause ∧
        List.IsPrefix ((calls ++ [c]).map (fun d => d.category))
          (params.Types.filter recognised) := by
  have hlogged : (MusicService.searchLoop p.logged params params.Types {} (s, [])).1 =
      some ret := ((searchLoop_logged_eq p params params.Types {} s []).1).trans hret
  obtain ⟨hnil, calls, c, cause, hj, hrest⟩ :=
    searchLoop_logged_error p params params.Types {} s [] ret e hlogged herr
  exact ⟨hnil, calls, c, cause, by simpa [MusicService.journal, MusicService.Search] using hj,
    hrest⟩

/-- C15, worked example: with the albums provider failing on the request for
artists, songs and albums, the error reads
`error searching albums: upstream down` and unwraps to the provider's error. -/
theorem MusicService.Search_error_names_category_witness :
    ((MusicService.Search albumsDownProvider sampleParams ()).1 =
        some ⟨none, some (Errorf_w "error searching albums: ".toList
          (.errorString "upstream down".toList))⟩ ∧
      (Errorf_w "error searching albums: ".toList (.errorString "upstream down".toList)).Error =
        "error searching albums: upstream down".toList) ∧
    ∃ calls c cause,
      MusicService.journal albumsDownProvider sampleParams () = calls ++ [c] ∧
      (∀ d ∈ calls, d.err = none) ∧ c.err = some cause ∧
      (c.category = SongsType ∨ c.category = AlbumsType ∨ c.category = ArtistsType) ∧
      (Errorf_w "error searching albums: ".toList (.errorString "upstream down".toList)).Error =
        "error searching ".toList ++ c.category ++ ": ".toList ++ cause.Error ∧
      (Errorf_w "error searching albums: ".toList
        (.errorString "upstream down".toList)).Unwrap = some cause ∧
      List.IsPrefix ((calls ++ [c]).map (fun d => d.category))
        (sampleParams.Types.filter recognised) :=
  ⟨by decide,
    (MusicService.Search_error_names_category albumsDownProvider sampleParams ()
      ⟨none, some (Errorf_w "error searching albums: ".toList
        (.errorString "upstream down".toList))⟩ _ (by decide) rfl).2⟩

/-! ## Playlists -/

/-- The loop of `RemoveTrack` keeps the tracks with another identifier, in
order. -/
theorem removeLoop_eq (trackID : GoString) (tracks : List Track) :
    ∀ updatedTracks : List Track,
      Playlist.RemoveTrack.loop trackID tracks updatedTracks =
        updatedTracks ++ tracks.filter (fun track => decide (track.ID ≠ trackID)) := by
  induction tracks with
  | nil => intro acc; simp [Playlist.RemoveTrack.loop]
  | cons track rest ih =>
    intro acc
    simp only [Playlist.RemoveTrack.loop]
    by_cases h : track.ID ≠ trackID
    · rw [if_pos h, ih, List.filter_cons_of_pos (by simpa using h), List.append_assoc,
        List.singleton_append]
    · rw [if_neg h, ih, List.filter_cons_of_neg (by simpa using h)]

/-- Removing a track does not make the playlist longer. -/
theorem RemoveTrack_length_le (p : Playlist) (trackID : GoString) :
    (p.RemoveTrack trackID).1.Tracks.length ≤ p.Tracks.length := by
  simp only [Playlist.RemoveTrack, removeLoop_eq, List.nil_append]
  exact List.length_filter_le _ _

/-- Adding a track keeps a playlist of at most 100 tracks at most 100 long. -/
theorem AddTrack_length_le (p : Playlist) (track : Track) (h : p.Tracks.length ≤ 100) :
    (p.AddTrack track).1.Tracks.length ≤ 100 := by
  unfold Playlist.AddTrack MaxTracksPerPlaylist
  by_cases hfull : p.Tracks.length ≥ 100
  · rw [if_pos hfull]
    exact h
  · rw [if_neg hfull]
    simp only [List.length_append, List.length_singleton]
    omega

/-- The bound of 100 tracks survives every sequence of calls. -/
theorem afterCalls_length_le (calls : List PlaylistCall) :
    ∀ p : Playlist, p.Tracks.length ≤ 100 → (p.afterCalls calls).Tracks.length ≤ 100 := by
  induction calls with
  | nil => intro p h; exact h
  | cons call rest ih =>
    intro p h
    cases call with
    | addTrack track => exact ih _ (AddTrack_length_le p track h)
    | removeTrack trackID => exact ih _ (le_trans (RemoveTrack_length_le p trackID) h)

/-- C16. The playlist track limit is an invariant of the playlist operations:
`AddTrack` returns an error if and only if the playlist already holds at least
`MaxTracksPerPlaylist` (100) tracks; in that case the track list is unchanged,
otherwise the track is appended at the end; so a playlist holding at most 100
tracks still holds at most 100 after any sequence of `AddTrack` and
`RemoveTrack` calls. -/
theorem Playlist.track_limit_invariant (p : Playlist) (track : Track)
    (calls : List PlaylistCall) :
    MaxTracksPerPlaylist = 100 ∧
      ((p.AddTrack track).2 ≠ none ↔ MaxTracksPerPlaylist ≤ p.Tracks.length) ∧
      (MaxTracksPerPlaylist ≤ p.Tracks.length → (p.AddTrack track).1 = p) ∧
      (p.Tracks.length < MaxTracksPerPlaylist →
        (p.AddTrack track).1.Tracks = p.Tracks ++ [track]) ∧
      (p.Tracks.length ≤ 100 → (p.afterCalls calls).Tracks.length ≤ 100) := by
  refine ⟨rfl, ?_, ?_, ?_, afterCalls_length_le calls p⟩
  · unfold Playlist.AddTrack
    by_cases hfull : p.Tracks.length ≥ MaxTracksPerPlaylist
    · rw [if_pos hfull]
      exact ⟨fun _ => hfull, fun _ => Option.some_ne_none _⟩
    · rw [if_neg hfull]
      exact ⟨fun h => absurd rfl h, fun h => absurd h hfull⟩
  · intro hfull
    unfold Playlist.AddTrack
    rw [if_pos hfull]
  · intro hroom
    unfold Playlist.AddTrack
    rw [if_neg (by omega)]

/-- C16, worked example: a playlist of 100 tracks refuses another track and
stays as it is, and it holds at most 100 tracks after an `AddTrack`, a
`RemoveTrack` and two more `AddTrack` calls. -/
theorem Playlist.track_limit_invariant_witness :
    (fullPlaylist.Tracks.length ≤ 100 ∧ MaxTracksPerPlaylist ≤ fullPlaylist.Tracks.length) ∧
      (fullPlaylist.AddTrack sampleNewTrack).1 = fullPlaylist ∧
      (fullPlaylist.afterCalls
        [.addTrack sampleNewTrack, .removeTrack "t".toList, .addTrack sampleNewTrack,
          .addTrack sampleNewTrack]).Tracks.length ≤ 100 :=
  ⟨by decide,
    (Playlist.track_limit_invariant fullPlaylist sampleNewTrack []).2.2.1 (by decide),
    (Playlist.track_limit_invariant fullPlaylist sampleNewTrack
      [.addTrack sampleNewTrack, .removeTrack "t".toList, .addTrack sampleNewTrack,
        .addTrack sampleNewTrack]).2.2.2.2 (by decide)⟩

/-! ## Pagination links and the category list -/

/-- C13, failing input: for the term `a&b` the handler writes the link
`/v1/catalog/us/search?term=a&b&types=artists&limit=5&offset=0`; the term is
not escaped, and decoding the query string of the link yields the term `a`
(and a stray key `b`), not the term `a&b` of the query. -/
theorem SearchHandler.href_term_not_escaped :
    ∃ body entry,
      (SearchHandler.Search (mockMusicProvider none) ampersandRequest ()).1 =
          some (.json body) ∧
        body.artists = some entry ∧
        entry.Href =
          "/v1/catalog/us/search?term=a&b&types=artists&limit=5&offset=0".toList ∧
        ParseQuery (rawQueryOf entry.Href) =
          [("term".toList, "a".toList), ("b".toList, []), ("types".toList, "artists".toList),
            ("limit".toList, "5".toList), ("offset".toList, "0".toList)] ∧
        Values.Get (ParseQuery (rawQueryOf entry.Href)) "term".toList ≠ ampersandRequest.term :=
  ⟨_, _, rfl, rfl, by decide, by decide, by decide⟩

/-- C14, counterexample: for `types=songs,songs` the category list of the
handler is `[songs, songs]`; it holds `songs` twice, and so does the order of
the response. -/
theorem SearchHandler.duplicate_types_counterexample :
    SearchHandler.parseTypes songsTwiceRequest.types = [SongsType, SongsType] ∧
      ¬ (SearchHandler.parseTypes songsTwiceRequest.types).Nodup ∧
      SearchHandler.journal (mockMusicProvider none) songsTwiceRequest () =
        [⟨"test".toList, 5, 0, [SongsType, SongsType]⟩] ∧
      ∃ body, (SearchHandler.Search (mockMusicProvider none) songsTwiceRequest ()).1 =
          some (.json body) ∧
        body.Order = ["songs".toList, "songs".toList] :=
  ⟨by decide, by decide, by decide, _, rfl, by decide⟩

/-- The occurrences of a string that passes a filter are not changed by the
filter. -/
theorem occurrences_filter (p : GoString → Bool) (c : GoString) (l : List GoString)
    (hc : p c = true) : occurrences c (l.filter p) = occurrences c l := by
  unfold occurrences
  rw [List.filter_filter]
  congr 1
  apply List.filter_congr
  intro t _
  by_cases ht : t = c
  · subst ht; simp [hc]
  · simp [ht]

theorem occurrences_cons (c a : GoString) (l : List GoString) :
    occurrences c (a :: l) = (if a = c then 1 else 0) + occurrences c l := by
  unfold occurrences
  by_cases h : a = c
  · rw [List.filter_cons_of_pos (by simpa using h), if_pos h, List.length_cons]
    omega
  · rw [List.filter_cons_of_neg (by simpa using h), if_neg h]
    omega

/-- A string that is not in the list does not occur in it. -/
theorem occurrences_of_not_mem (c : GoString) (l : List GoString) (h : c ∉ l) :
    occurrences c l = 0 := by
  unfold occurrences
  rw [List.length_eq_zero, List.filter_eq_nil_iff]
  intro t ht heq
  exact h (by rw [← of_decide_eq_true heq]; exact ht)

/-- A string that is in the list occurs in it. -/
theorem occurrences_pos_of_mem (c : GoString) (l : List GoString) (h : c ∈ l) :
    1 ≤ occurrences c l := by
  unfold occurrences
  exact List.length_pos_of_mem (List.mem_filter.mpr ⟨h, decide_eq_true rfl⟩)

/-- A list of strings has no duplicates exactly when no string occurs twice. -/
theorem nodup_iff_occurrences (l : List GoString) :
    l.Nodup ↔ ∀ c, occurrences c l ≤ 1 := by
  induction l with
  | nil => exact ⟨fun _ c => Nat.zero_le 1, fun _ => List.nodup_nil⟩
  | cons a rest ih =>
    rw [List.nodup_cons]
    constructor
    · rintro ⟨hnot, hnodup⟩ c
      rw [occurrences_cons]
      by_cases h : a = c
      · rw [if_pos h, ← h, occurrences_of_not_mem a rest hnot]
      · rw [if_neg h, Nat.zero_add]
        exact ih.mp hnodup c
    · intro h
      constructor
      · intro hmem
        have h1 := h a
        rw [occurrences_cons, if_pos rfl] at h1
        have h2 := occurrences_pos_of_mem a rest hmem
        omega
      · apply ih.mpr
        intro c
        have h1 := h c
        rw [occurrences_cons] at h1
        omega

/-- C14, amended. The list of categories the handler passes to the service
holds only `artists`, `songs` and `albums`, each exactly as many times as it
occurs among the trimmed tokens of `types` (once each when `types` is
omitted); so it holds each at most once exactly when `types` is omitted or
names no category twice. -/
theorem SearchHandler.types_multiplicity {σ : Type} (svc : MusicServicePort σ)
    (r : SearchRequest) (s : σ) :
    (∀ params ∈ SearchHandler.journal svc r s,
      params.Types = SearchHandler.parseTypes r.types) ∧
    (∀ c ∈ SearchHandler.parseTypes r.types,
      c = ArtistsType ∨ c = SongsType ∨ c = AlbumsType) ∧
    (r.types = [] → SearchHandler.parseTypes r.types = [ArtistsType, SongsType, AlbumsType]) ∧
    (r.types ≠ [] → ∀ c, c = ArtistsType ∨ c = SongsType ∨ c = AlbumsType →
      occurrences c (SearchHandler.parseTypes r.types) =
        occurrences c ((Split r.types ',').map TrimSpace)) ∧
    ((SearchHandler.parseTypes r.types).Nodup ↔
      (r.types = [] ∨ ∀ c, c = ArtistsType ∨ c = SongsType ∨ c = AlbumsType →
        occurrences c ((Split r.types ',').map TrimSpace) ≤ 1)) := by
  have hrec : ∀ c : GoString, recognised c = true ↔
      (c = ArtistsType ∨ c = SongsType ∨ c = AlbumsType) := by
    intro c
    simp [recognised, ArtistsType, SongsType, AlbumsType]
  have hcount : r.types ≠ [] → ∀ c, c = ArtistsType ∨ c = SongsType ∨ c = AlbumsType →
      occurrences c (SearchHandler.parseTypes r.types) =
        occurrences c ((Split r.types ',').map TrimSpace) := by
    intro hne c hc
    rw [parseTypes_eq_specOrder r.types hne]
    unfold specOrder
    exact occurrences_filter recognised c _ ((hrec c).mpr hc)
  refine ⟨journal_types svc r s, ?_, ?_, hcount, ?_⟩
  · intro c hc
    exact (hrec c).mp (parseTypes_recognised r.types c hc)
  · intro hempty
    rw [hempty]
    rfl
  · by_cases hempty : r.types = []
    · constructor
      · intro _; exact Or.inl hempty
      · intro _
        rw [hempty]
        decide
    · rw [nodup_iff_occurrences]
      constructor
      · intro h
        refine Or.inr (fun c hc => ?_)
        rw [← hcount hempty c hc]
        exact h c
      · rintro (h | h)
        · exact absurd h hempty
        · intro c
          by_cases hc : c ∈ SearchHandler.parseTypes r.types
          · have hc' := (hrec c).mp (parseTypes_recognised r.types c hc)
            rw [hcount hempty c hc']
            exact h c hc'
          · rw [occurrences_of_not_mem c _ hc]
            exact Nat.zero_le 1

/-- C14, worked example of the amended statement: `types=songs,artists` names
no category twice and the category list has no duplicates. -/
theorem SearchHandler.types_multiplicity_witness :
    SearchHandler.parseTypes songsArtistsRequest.types = [SongsType, ArtistsType] ∧
      (SearchHandler.parseTypes songsArtistsRequest.types).Nodup ∧
      occurrences SongsType (SearchHandler.parseTypes songsTwiceRequest.types) = 2 ∧
      ∀ params ∈ SearchHandler.journal (mockMusicProvider none) songsArtistsRequest (),
        params.Types = SearchHandler.parseTypes songsArtistsRequest.types :=
  ⟨by decide, by decide, by decide,
    (SearchHandler.types_multiplicity (mockMusicProvider none) songsArtistsRequest ()).1⟩

end AppleMusic
